import Mathlib

/-!
System calls of the Pintos user-program layer (`src/userprog/syscall.c`).

A shallow embedding of the dispatcher `syscall_handler`, of the thirteen
system-call bodies and of the pointer validator, followed by theorems about
them.

Conventions of the embedding.

* Pointers (`void *`, `char *`, `struct file *`) are natural numbers, `0` is `NULL`.
* `int` values are integers; `unsigned` values are naturals, and a conversion
  between the two is written out (`toInt32`, `toUInt32`).  The arithmetic on
  `open_file_number` is not wrapped: the counter follows the number of live
  heap records, which stays far below `2^31`.
* `process_files` is the list of its records, front to back; `malloc` is taken
  to succeed.
* The code of the kernel outside `syscall.c` (page directory, file system,
  console, loader, scheduler, locks) is not part of this source.  What a call
  into it answers is read from an `Env`; that the call was made is recorded as
  an `Event` appended to the machine's trace.
* A C function that may not come back (`exit`, `halt`) yields a `Result`, which
  says whether control returned to the caller.
* A read or a store that `syscall.c` itself makes through a raw pointer (the
  words of the user stack, the bytes of the console buffer) completes only when
  the address is backed by a page; otherwise the call ends in a page fault.  A
  word is read as a unit at its address.
-/

namespace Syscall

/-! ## Machine integers -/

/-- Conversion of a C `int` to a 32-bit `unsigned`. -/
def toUInt32 (i : Int) : Nat := (i % 4294967296).toNat

/-- Conversion of a 32-bit `unsigned` to a C `int` (two's complement). -/
def toInt32 (n : Nat) : Int :=
  if n % 4294967296 < 2147483648 then ((n % 4294967296 : Nat) : Int)
  else ((n % 4294967296 : Nat) : Int) - 4294967296

/-- Modelled from the spec: `STDIN_FILENO` of `<stdio.h>`, the console-input
handle ("fd 0 (stdin)"). -/
def STDIN_FILENO : Int := 0

/-- Modelled from the spec: `STDOUT_FILENO` of `<stdio.h>`, the console-output
handle ("fd 1 (stdout)"). -/
def STDOUT_FILENO : Int := 1

/-! ## Data model -/

/-- One `struct file_info` of the list `process_files`: the handle and the
`struct file *` it stands for. -/
structure file_info where
  handle : Int
  file : Nat
deriving DecidableEq, Repr

/-- One entry of `child_list` as `exec` reads it: the `tid` of the child and the
`load_bool` it shows once the load semaphore has been downed. -/
structure child_info where
  tid : Int
  load_bool : Bool
deriving DecidableEq, Repr

/-- The fields of `struct thread` that `syscall.c` reads or writes through
`thread_current()`; `parent_is_alive` is `thread_current()->parent->is_alive`. -/
structure thread where
  name : List Char
  is_alive : Bool
  exit_status : Int
  parent_is_alive : Bool
  open_file_number : Int
  process_files : List file_info
  child_list : List child_info
deriving DecidableEq, Repr

/-- A call that leaves `syscall.c`, or an access to user memory through a raw
pointer. -/
inductive Event where
  | lock_init
  | lock_acquire
  | lock_release
  | filesys_create (name : Nat) (initial_size : Nat)
  | filesys_remove (name : Nat)
  | filesys_open (name : Nat)
  | file_read (file : Nat) (buffer : Nat) (size : Nat)
  | file_write (file : Nat) (buffer : Nat) (size : Nat)
  | file_seek (file : Nat) (position : Nat)
  | file_tell (file : Nat)
  | file_length (file : Nat)
  | file_close (file : Nat)
  | input_getc
  | store_byte (addr : Nat) (value : Nat)
  | load_word (addr : Nat)
  | putbuf (buffer : Nat) (size : Nat)
  | printf_exit (name : List Char) (status : Int)
  | thread_exit
  | shutdown_power_off
  | process_execute (cmd_line : Nat)
  | process_wait (pid : Int)
  | sema_down
deriving DecidableEq, Repr

/-- What the rest of the kernel answers during one system call.

* `is_user_vaddr`, `pagedir_get_page`: the address-space queries of
  `threads/vaddr.h` and `pagedir.h` (for the current page directory).
* `empty_string`: the address of the string literal `""` that `open` compares
  its argument with.
* `TID_ERROR`: the macro of `threads/thread.h`.
* `input_getc i`: the key the `i`-th call of `input_getc` (counted from 0 within
  this system call) delivers.
* `process_execute`: the thread id it answers and the entries that spawning
  links into the caller's `child_list`.
* `freed_node_readable`: whether a list node still shows its old `next` link
  when it is read after `free` (the allocator is not part of this source).
* `user_word`: the 32-bit word memory holds at an address.
* `kernel_mapped`: whether an address outside user space is backed by a kernel
  mapping, so that an access by the kernel completes.
* `page_writable`: whether a store by the kernel to a mapped user address
  completes (the page is not write-protected). -/
structure Env where
  is_user_vaddr : Nat → Bool
  pagedir_get_page : Nat → Nat
  empty_string : Nat
  TID_ERROR : Int
  filesys_create : Nat → Nat → Bool
  filesys_remove : Nat → Bool
  filesys_open : Nat → Nat
  file_read : Nat → Nat → Nat → Int
  file_write : Nat → Nat → Nat → Int
  file_tell : Nat → Int
  file_length : Nat → Int
  input_getc : Nat → Nat
  process_execute : Nat → Int × List child_info
  process_wait : Int → Int
  freed_node_readable : Bool
  user_word : Nat → Nat
  kernel_mapped : Nat → Bool
  page_writable : Nat → Bool

/-- The running process together with the trace of events so far. -/
structure Machine where
  cur : thread
  trace : List Event
deriving DecidableEq, Repr

/-- How a C function of `syscall.c` ends.

* `returned v m`: it returns `v`.
* `exited m`: `thread_exit ()` was reached inside `exit`; the process is gone.
* `powered_off m`: `shutdown_power_off ()` was reached.
* `undefined m`: the code read memory it had freed or a variable it never
  assigned, or stored into kernel memory through a pointer the user supplied;
  `m` is the machine at that point.
* `page_fault m`: the code accessed an address that no page backs; the CPU
  raises a page fault inside the kernel, whose handler is not part of this
  source.  The access that faulted is the last event of the trace of `m`. -/
inductive Result (α : Type) where
  | returned (v : α) (m : Machine)
  | exited (m : Machine)
  | powered_off (m : Machine)
  | undefined (m : Machine)
  | page_fault (m : Machine)
deriving DecidableEq, Repr

/-- The same ending with the returned value changed by `f`. -/
def Result.map {α β : Type} (f : α → β) : Result α → Result β
  | Result.returned v m => Result.returned (f v) m
  | Result.exited m => Result.exited m
  | Result.powered_off m => Result.powered_off m
  | Result.undefined m => Result.undefined m
  | Result.page_fault m => Result.page_fault m

/-- The machine an ending carries. -/
def Result.machine {α : Type} : Result α → Machine
  | Result.returned _ m => m
  | Result.exited m => m
  | Result.powered_off m => m
  | Result.undefined m => m
  | Result.page_fault m => m

/-- Appends one event to the trace. -/
def Machine.emit (m : Machine) (e : Event) : Machine :=
  { m with trace := m.trace ++ [e] }

/-- The machine with another `open_file_number` and `process_files`. -/
def Machine.set_files (m : Machine) (n : Int) (l : List file_info) : Machine :=
  { m with cur := { m.cur with open_file_number := n, process_files := l } }

/-! ## The code -/

/-- `validate_pointer` (syscall.c:117). -/
def validate_pointer (env : Env) (vaddr : Nat) : Bool :=
  if vaddr ≠ 0 ∧ env.is_user_vaddr vaddr = true ∧ env.pagedir_get_page vaddr ≠ 0 then
    true
  else
    false

/-- Whether a read by the kernel at address `a` completes: a user address needs
a page in the current page directory, any other address a kernel mapping. -/
def readable (env : Env) (a : Nat) : Bool :=
  if env.is_user_vaddr a = true then decide (env.pagedir_get_page a ≠ 0)
  else env.kernel_mapped a

/-- Whether a store by the kernel at address `a` lands in user memory: `a` is a
user address with a page in the current page directory that can be written. -/
def user_writable (env : Env) (a : Nat) : Bool :=
  env.is_user_vaddr a && decide (env.pagedir_get_page a ≠ 0) && env.page_writable a

/-- `halt` (syscall.c:125). -/
def halt (m : Machine) : Result Unit :=
  Result.powered_off (m.emit Event.shutdown_power_off)

/-- `wait` (syscall.c:130). -/
def wait (env : Env) (pid : Int) (m : Machine) : Result Int :=
  Result.returned (env.process_wait pid) (m.emit (Event.process_wait pid))

/-- `exit` (syscall.c:157): the status is stored only when the parent is alive;
the line printed shows the stored `exit_status`; `thread_exit` does not return. -/
def exit {α : Type} (status : Int) (m : Machine) : Result α :=
  let t : thread :=
    if m.cur.parent_is_alive then
      { m.cur with is_alive := false, exit_status := status }
    else m.cur
  Result.exited
    { cur := t, trace := m.trace ++ [Event.printf_exit t.name t.exit_status, Event.thread_exit] }

/-- The scan of `process_files` shared by `read`, `write`, `filesize`, `seek`,
`tell` and `close`: `current_file` starts as `NULL` and becomes the `file` of the
first record whose handle is `fd`. -/
def find_file (fd : Int) : List file_info → Nat
  | [] => 0
  | r :: rest => if r.handle = fd then r.file else find_file fd rest

/-- The scan of `child_list` in `exec`: the first entry whose `tid` is `pid`;
`none` when the loop runs off the end and leaves `child_process` unassigned. -/
def find_child (pid : Int) : List child_info → Option child_info
  | [] => none
  | c :: rest => if c.tid = pid then some c else find_child pid rest

/-- `exec` (syscall.c:135). -/
def exec (env : Env) (cmd_line : Nat) (m : Machine) : Result Int :=
  if validate_pointer env cmd_line = false then exit (-1) m
  else
    let spawned := env.process_execute cmd_line
    let pid := spawned.1
    let m1 : Machine :=
      { cur := { m.cur with child_list := m.cur.child_list ++ spawned.2 },
        trace := m.trace ++ [Event.process_execute cmd_line] }
    if pid = env.TID_ERROR then Result.returned (-1) m1
    else
      let m2 := m1.emit Event.sema_down
      match find_child pid m1.cur.child_list with
      | none => Result.undefined m2
      | some child_process =>
        if child_process.load_bool = false then Result.returned (-1) m2
        else Result.returned pid m2

/-- The console loop of `read` (syscall.c:170), run over the values
`read_bytes` still to come: one `input_getc ()`, then the store of the key at
`buffer + read_bytes`.  The buffer is not validated on this path.  A store to a
writable user page completes and the loop goes on; a store to a mapped kernel
address overwrites kernel memory; any other store faults. -/
def read_console (env : Env) (buffer : Nat) : List Nat → Machine → Result Unit
  | [], m => Result.returned () m
  | read_bytes :: rest, m =>
    let m1 := (m.emit Event.input_getc).emit
      (Event.store_byte ((buffer + read_bytes) % 4294967296) (env.input_getc read_bytes))
    if user_writable env ((buffer + read_bytes) % 4294967296) = true then
      read_console env buffer rest m1
    else if env.is_user_vaddr ((buffer + read_bytes) % 4294967296) = false ∧
        env.kernel_mapped ((buffer + read_bytes) % 4294967296) = true then
      Result.undefined m1
    else Result.page_fault m1

/-- `read` (syscall.c:167). -/
def read (env : Env) (fd : Int) (buffer : Nat) (size : Nat) (m : Machine) : Result Int :=
  if fd = STDIN_FILENO then
    (read_console env buffer (List.range size) m).map (fun _ => toInt32 size)
  else if validate_pointer env buffer = false then exit (-1) m
  else
    let m1 := m.emit Event.lock_acquire
    let current_file := find_file fd m1.cur.process_files
    if current_file = 0 then Result.returned (-1) (m1.emit Event.lock_release)
    else
      let read_bytes := toUInt32 (env.file_read current_file buffer size)
      let m2 := m1.emit (Event.file_read current_file buffer size)
      Result.returned (toInt32 read_bytes) (m2.emit Event.lock_release)

/-- `write` (syscall.c:197). -/
def write (env : Env) (fd : Int) (buffer : Nat) (size : Nat) (m : Machine) : Result Int :=
  if fd = STDOUT_FILENO then
    Result.returned (toInt32 size) (m.emit (Event.putbuf buffer size))
  else if validate_pointer env buffer = false then exit (-1) m
  else
    let m1 := m.emit Event.lock_acquire
    let current_file := find_file fd m1.cur.process_files
    if current_file = 0 then Result.returned (-1) (m1.emit Event.lock_release)
    else
      let wrote_bytes := env.file_write current_file buffer size
      let m2 := m1.emit (Event.file_write current_file buffer size)
      Result.returned wrote_bytes (m2.emit Event.lock_release)

/-- `create` (syscall.c:224). -/
def create (env : Env) (file : Nat) (initial_size : Nat) (m : Machine) : Result Bool :=
  if file = 0 ∨ validate_pointer env file = false then exit (-1) m
  else
    Result.returned (env.filesys_create file initial_size)
      (m.emit (Event.filesys_create file initial_size))

/-- `open` (syscall.c:232).  The record is made with the handle
`open_file_number + 2`, the counter is incremented, and the record is pushed
at the back of `process_files`. -/
def «open» (env : Env) (file : Nat) (m : Machine) : Result Int :=
  if file = 0 then Result.returned (-1) m
  else if validate_pointer env file = false then exit (-1) m
  else
    let m1 := m.emit Event.lock_acquire
    let f := env.filesys_open file
    let m2 := m1.emit (Event.filesys_open file)
    if f = 0 ∨ file = env.empty_string then Result.returned (-1) (m2.emit Event.lock_release)
    else
      let handle := m2.cur.open_file_number + 2
      let m3 := m2.set_files (m2.cur.open_file_number + 1)
        (m2.cur.process_files ++ [{ handle := handle, file := f }])
      Result.returned handle (m3.emit Event.lock_release)

/-- `filesize` (syscall.c:253). -/
def filesize (env : Env) (fd : Int) (m : Machine) : Result Int :=
  let current_file := find_file fd m.cur.process_files
  if current_file = 0 then Result.returned (-1) m
  else Result.returned (env.file_length current_file) (m.emit (Event.file_length current_file))

/-- `remove` (syscall.c:269). -/
def remove (env : Env) (file : Nat) (m : Machine) : Result Bool :=
  Result.returned (env.filesys_remove file) (m.emit (Event.filesys_remove file))

/-- `seek` (syscall.c:274). -/
def seek (fd : Int) (position : Nat) (m : Machine) : Result Unit :=
  let current_file := find_file fd m.cur.process_files
  if current_file = 0 then Result.returned () m
  else Result.returned () (m.emit (Event.file_seek current_file position))

/-- `tell` (syscall.c:291); the result type is `unsigned`, so `-1` is
`toUInt32 (-1)`. -/
def tell (env : Env) (fd : Int) (m : Machine) : Result Nat :=
  let current_file := find_file fd m.cur.process_files
  if current_file = 0 then Result.returned (toUInt32 (-1)) m
  else
    Result.returned (toUInt32 (env.file_tell current_file))
      (m.emit (Event.file_tell current_file))

/-- `list_remove (e)` in `close` for the `e` at which the scan stopped: the
list without its first record whose handle is `fd`. -/
def list_remove (fd : Int) : List file_info → List file_info
  | [] => []
  | r :: rest => if r.handle = fd then rest else r :: list_remove fd rest

/-- The loop of `close (-1)` (syscall.c:327), entered with `e` at the front of
the records still linked.  The body closes the file of `e`, decrements
`open_file_number`, unlinks `e` and frees its record; the step
`e = list_next (e)` then reads the `next` link out of the freed record.  When
that read still shows the old link the loop goes on with the next record,
otherwise what follows is undefined. -/
def close_all (env : Env) : List file_info → Machine → Result Unit
  | [], m => Result.returned () m
  | r :: rest, m =>
    let m1 := (m.emit (Event.file_close r.file)).set_files (m.cur.open_file_number - 1) rest
    if env.freed_node_readable then close_all env rest m1 else Result.undefined m1

/-- `close` (syscall.c:307). -/
def close (env : Env) (fd : Int) (m : Machine) : Result Unit :=
  if fd ≠ -1 then
    let current_file := find_file fd m.cur.process_files
    if current_file = 0 then Result.returned () m
    else
      let m1 := m.emit (Event.file_close current_file)
      Result.returned ()
        (m1.set_files (m1.cur.open_file_number - 1) (list_remove fd m1.cur.process_files))
  else close_all env m.cur.process_files m

/-! ## The dispatcher -/

/-- The fields of `struct intr_frame` that `syscall_handler` uses: the user
stack pointer and the return slot. -/
structure intr_frame where
  esp : Nat
  eax : Nat
deriving DecidableEq, Repr

/-- Modelled from the spec: `SYS_HALT` of `<syscall-nr.h>`, the number of `halt`
in the "fixed enumeration (halt, exit, exec, wait, create, remove, open,
filesize, read, write, seek, tell, close)", counted from 0. -/
def SYS_HALT : Int := 0

/-- Modelled from the spec: `SYS_EXIT` of `<syscall-nr.h>`, the number of `exit`
in the "fixed enumeration (halt, exit, exec, wait, create, remove, open,
filesize, read, write, seek, tell, close)", counted from 0. -/
def SYS_EXIT : Int := 1

/-- Modelled from the spec: `SYS_EXEC` of `<syscall-nr.h>`, the number of `exec`
in the "fixed enumeration (halt, exit, exec, wait, create, remove, open,
filesize, read, write, seek, tell, close)", counted from 0. -/
def SYS_EXEC : Int := 2

/-- Modelled from the spec: `SYS_WAIT` of `<syscall-nr.h>`, the number of `wait`
in the "fixed enumeration (halt, exit, exec, wait, create, remove, open,
filesize, read, write, seek, tell, close)", counted from 0. -/
def SYS_WAIT : Int := 3

/-- Modelled from the spec: `SYS_CREATE` of `<syscall-nr.h>`, the number of `create`
in the "fixed enumeration (halt, exit, exec, wait, create, remove, open,
filesize, read, write, seek, tell, close)", counted from 0. -/
def SYS_CREATE : Int := 4

/-- Modelled from the spec: `SYS_REMOVE` of `<syscall-nr.h>`, the number of `remove`
in the "fixed enumeration (halt, exit, exec, wait, create, remove, open,
filesize, read, write, seek, tell, close)", counted from 0. -/
def SYS_REMOVE : Int := 5

/-- Modelled from the spec: `SYS_OPEN` of `<syscall-nr.h>`, the number of `open`
in the "fixed enumeration (halt, exit, exec, wait, create, remove, open,
filesize, read, write, seek, tell, close)", counted from 0. -/
def SYS_OPEN : Int := 6

/-- Modelled from the spec: `SYS_FILESIZE` of `<syscall-nr.h>`, the number of `filesize`
in the "fixed enumeration (halt, exit, exec, wait, create, remove, open,
filesize, read, write, seek, tell, close)", counted from 0. -/
def SYS_FILESIZE : Int := 7

/-- Modelled from the spec: `SYS_READ` of `<syscall-nr.h>`, the number of `read`
in the "fixed enumeration (halt, exit, exec, wait, create, remove, open,
filesize, read, write, seek, tell, close)", counted from 0. -/
def SYS_READ : Int := 8

/-- Modelled from the spec: `SYS_WRITE` of `<syscall-nr.h>`, the number of `write`
in the "fixed enumeration (halt, exit, exec, wait, create, remove, open,
filesize, read, write, seek, tell, close)", counted from 0. -/
def SYS_WRITE : Int := 9

/-- Modelled from the spec: `SYS_SEEK` of `<syscall-nr.h>`, the number of `seek`
in the "fixed enumeration (halt, exit, exec, wait, create, remove, open,
filesize, read, write, seek, tell, close)", counted from 0. -/
def SYS_SEEK : Int := 10

/-- Modelled from the spec: `SYS_TELL` of `<syscall-nr.h>`, the number of `tell`
in the "fixed enumeration (halt, exit, exec, wait, create, remove, open,
filesize, read, write, seek, tell, close)", counted from 0. -/
def SYS_TELL : Int := 11

/-- Modelled from the spec: `SYS_CLOSE` of `<syscall-nr.h>`, the number of `close`
in the "fixed enumeration (halt, exit, exec, wait, create, remove, open,
filesize, read, write, seek, tell, close)", counted from 0. -/
def SYS_CLOSE : Int := 12

/-- The address `(int *) f->esp + k` of word `k` of the user stack. -/
def slot (f : intr_frame) (k : Nat) : Nat := (f.esp + 4 * k) % 4294967296

/-- The `int` that `*((int *) f->esp + k)` yields. -/
def stack_word (env : Env) (f : intr_frame) (k : Nat) : Int :=
  toInt32 (env.user_word (slot f k))

/-- The read `*((int *) f->esp + k)`, recorded in the trace. -/
def Machine.load (m : Machine) (f : intr_frame) (k : Nat) : Machine :=
  m.emit (Event.load_word (slot f k))

/-- The assignment `f->eax = v`. -/
def intr_frame.set_eax (f : intr_frame) (v : Nat) : intr_frame :=
  { f with eax := v }

/-- One read `*((int *) f->esp + k)` of the dispatcher, followed by the code
`next` that uses the word: the read is recorded; when the address is not
readable the handler ends there in a page fault. -/
def fetch {α : Type} (env : Env) (f : intr_frame) (k : Nat) (m : Machine)
    (next : Int → Machine → Result α) : Result α :=
  if readable env (slot f k) = true then next (stack_word env f k) (m.load f k)
  else Result.page_fault (m.load f k)

/-- `syscall_handler` (syscall.c:48).  Only `f->esp` is passed to
`validate_pointer`; the word at `f->esp` is read after that test has passed, so
this read completes.  Every case of the `switch` reads its argument words from
the user stack, in order, calls the function, and stores a result in `f->eax`;
a number without a case falls out of the `switch`.  An `int` passed as a
pointer or as an `unsigned` is converted with `toUInt32`, and so is an `int`
result stored in `eax`; a `bool` result is stored as 1 or 0. -/
def syscall_handler (env : Env) (f : intr_frame) (m : Machine) : Result intr_frame :=
  let m0 := m.emit Event.lock_init
  if validate_pointer env f.esp = false then exit (-1) m0
  else
    let syscall_nr := stack_word env f 0
    let m1 := m0.load f 0
    if syscall_nr = SYS_HALT then (halt m1).map (fun _ => f)
    else if syscall_nr = SYS_EXIT then
      fetch env f 1 m1 fun a0 m2 =>
      if a0 < -1 then exit (-1) m2 else exit a0 m2
    else if syscall_nr = SYS_EXEC then
      fetch env f 1 m1 fun a0 m2 =>
      (exec env (toUInt32 a0) m2).map (fun v => f.set_eax (toUInt32 v))
    else if syscall_nr = SYS_WAIT then
      fetch env f 1 m1 fun a0 m2 =>
      (wait env a0 m2).map (fun v => f.set_eax (toUInt32 v))
    else if syscall_nr = SYS_CREATE then
      fetch env f 1 m1 fun a0 m2 =>
      fetch env f 2 m2 fun a1 m3 =>
      (create env (toUInt32 a0) (toUInt32 a1) m3).map (fun v => f.set_eax (if v then 1 else 0))
    else if syscall_nr = SYS_REMOVE then
      fetch env f 1 m1 fun a0 m2 =>
      (remove env (toUInt32 a0) m2).map (fun v => f.set_eax (if v then 1 else 0))
    else if syscall_nr = SYS_OPEN then
      fetch env f 1 m1 fun a0 m2 =>
      (Syscall.open env (toUInt32 a0) m2).map (fun v => f.set_eax (toUInt32 v))
    else if syscall_nr = SYS_FILESIZE then
      fetch env f 1 m1 fun a0 m2 =>
      (filesize env a0 m2).map (fun v => f.set_eax (toUInt32 v))
    else if syscall_nr = SYS_READ then
      fetch env f 1 m1 fun a0 m2 =>
      fetch env f 2 m2 fun a1 m3 =>
      fetch env f 3 m3 fun a2 m4 =>
      (read env a0 (toUInt32 a1) (toUInt32 a2) m4).map (fun v => f.set_eax (toUInt32 v))
    else if syscall_nr = SYS_WRITE then
      fetch env f 1 m1 fun a0 m2 =>
      fetch env f 2 m2 fun a1 m3 =>
      fetch env f 3 m3 fun a2 m4 =>
      (write env a0 (toUInt32 a1) (toUInt32 a2) m4).map (fun v => f.set_eax (toUInt32 v))
    else if syscall_nr = SYS_SEEK then
      fetch env f 1 m1 fun a0 m2 =>
      fetch env f 2 m2 fun a1 m3 =>
      (seek a0 (toUInt32 a1) m3).map (fun _ => f)
    else if syscall_nr = SYS_TELL then
      fetch env f 1 m1 fun a0 m2 =>
      (tell env a0 m2).map (fun v => f.set_eax v)
    else if syscall_nr = SYS_CLOSE then
      fetch env f 1 m1 fun a0 m2 =>
      (close env a0 m2).map (fun _ => f)
    else Result.returned f m1

/-- Whether the event is a call of one of the file-system primitives
`filesys_create`, `filesys_remove`, `filesys_open`, `file_read`, `file_write`,
`file_seek`, `file_tell`. -/
def Event.is_filesys : Event → Bool
  | Event.filesys_create _ _ => true
  | Event.filesys_remove _ => true
  | Event.filesys_open _ => true
  | Event.file_read _ _ _ => true
  | Event.file_write _ _ _ => true
  | Event.file_seek _ _ => true
  | Event.file_tell _ => true
  | _ => false

/-- Follows `filesys_lock` through a list of events, starting with the lock
held or not as `held` says: `none` when a file-system primitive is called while
the lock is not held, otherwise whether the lock is held at the end. -/
def lock_scan : Bool → List Event → Option Bool
  | held, [] => some held
  | _, Event.lock_init :: es => lock_scan false es
  | _, Event.lock_acquire :: es => lock_scan true es
  | _, Event.lock_release :: es => lock_scan false es
  | held, e :: es => if e.is_filesys = true ∧ held = false then none else lock_scan held es

/-! ## Sequences of calls on one process -/

/-- One call on the file-descriptor table, with its arguments. -/
inductive Call where
  | open (file : Nat)
  | close (fd : Int)
  | filesize (fd : Int)
  | read (fd : Int) (buffer : Nat) (size : Nat)
  | write (fd : Int) (buffer : Nat) (size : Nat)
  | seek (fd : Int) (position : Nat)
  | tell (fd : Int)
deriving DecidableEq, Repr

/-- Performs one call; the value is `none` for the `void` functions and the
unsigned result of `tell` is carried as an integer. -/
def Call.perform (env : Env) : Call → Machine → Result (Option Int)
  | Call.open file, m => (Syscall.open env file m).map some
  | Call.close fd, m => (Syscall.close env fd m).map (fun _ => none)
  | Call.filesize fd, m => (Syscall.filesize env fd m).map some
  | Call.read fd buffer size, m => (Syscall.read env fd buffer size m).map some
  | Call.write fd buffer size, m => (Syscall.write env fd buffer size m).map some
  | Call.seek fd position, m => (Syscall.seek fd position m).map (fun _ => none)
  | Call.tell fd, m => (Syscall.tell env fd m).map (fun v => some (Int.ofNat v))

/-- Performs the calls one after the other, each with the environment that
answers it, as long as every call returns: the values returned and the machine
after the last call.  `none` when some call did not return. -/
def run : List (Env × Call) → Machine → Option (List (Option Int) × Machine)
  | [], m => some ([], m)
  | (env, c) :: rest, m =>
    match c.perform env m with
    | Result.returned v m1 =>
      match run rest m1 with
      | some (vs, m2) => some (v :: vs, m2)
      | none => none
    | _ => none

/-- A process that has opened nothing yet: `process_files` empty and
`open_file_number` zero. -/
def Fresh (m : Machine) : Prop :=
  m.cur.process_files = [] ∧ m.cur.open_file_number = 0

/-- The table agrees with its counter: `open_file_number` is the number of
records, every record has a handle of at least 2 and a non-null file. -/
def Consistent (m : Machine) : Prop :=
  m.cur.open_file_number = (m.cur.process_files.length : Int) ∧
    ∀ r ∈ m.cur.process_files, 2 ≤ r.handle ∧ r.file ≠ 0

/-- The path condition under which `open` reaches the code that makes a record:
the name passes `validate_pointer`, `filesys_open` answers a file, and the name
is not the address of the literal `""`. -/
@[reducible] def open_succeeds (env : Env) (file : Nat) : Prop :=
  validate_pointer env file = true ∧ env.filesys_open file ≠ 0 ∧ file ≠ env.empty_string

/-- The handles of the records in `process_files`, front to back. -/
def handles (m : Machine) : List Int :=
  m.cur.process_files.map file_info.handle

/-- The handles that the successful `open` calls of a run returned, in call
order: a value other than `-1` returned by a `Call.open`. -/
def opened_handles : List (Env × Call) → List (Option Int) → List Int
  | (_, Call.open _) :: cs, some v :: vs =>
    if v = -1 then opened_handles cs vs else v :: opened_handles cs vs
  | _ :: cs, _ :: vs => opened_handles cs vs
  | _, _ => []

/-! ## The round trip through a file -/

/-- The call sequence `create (name, 0); fd = open (name); write (fd, data, len);
seek (fd, 0); read (fd, buf, len); close (fd)`, every call answered by `env`:
the `fd` that `open` returned and the machine after `close`, or `none` when one
of the calls does not return. -/
def round_trip (env : Env) (name data buf len : Nat) (m : Machine) : Option (Int × Machine) :=
  match create env name 0 m with
  | Result.returned _ m1 =>
    match Syscall.open env name m1 with
    | Result.returned fd m2 =>
      match write env fd data len m2 with
      | Result.returned _ m3 =>
        match seek fd 0 m3 with
        | Result.returned _ m4 =>
          match read env fd buf len m4 with
          | Result.returned _ m5 =>
            match close env fd m5 with
            | Result.returned _ m6 => some (fd, m6)
            | _ => none
          | _ => none
        | _ => none
      | _ => none
    | _ => none
  | _ => none

/-- Modelled from the spec: the file-system collaborator as "a faithful byte
store", which is not part of this source.  `content file` are the bytes of the
file behind a file object, `offset file` is its current offset, and `memory` is
user memory, one byte per address. -/
structure Store where
  content : Nat → List Nat
  offset : Nat → Nat
  memory : Nat → Nat

/-- Modelled from the spec: the bytes `c` with `bs` stored at offset `off`
(a gap before `off` is filled with zeros). -/
def write_at (c : List Nat) (off : Nat) (bs : List Nat) : List Nat :=
  c.take off ++ List.replicate (off - c.length) 0 ++ bs ++ c.drop (off + bs.length)

/-- Modelled from the spec: what one call does to the byte store.  "file_write
stores len bytes at the current offset, file_seek sets the offset, file_read
returns the bytes at the current offset"; reading and writing advance the
offset; every other event leaves the store alone. -/
def Store.step (s : Store) : Event → Store
  | Event.file_write file buffer size =>
    { s with
      content := fun x =>
        if x = file then
          write_at (s.content file) (s.offset file)
            ((List.range size).map (fun i => s.memory (buffer + i)))
        else s.content x,
      offset := fun x => if x = file then s.offset file + size else s.offset x }
  | Event.file_seek file position =>
    { s with offset := fun x => if x = file then position else s.offset x }
  | Event.file_read file buffer size =>
    { s with
      memory := fun a =>
        if buffer ≤ a ∧ a < buffer + size then
          (s.content file).getD (s.offset file + (a - buffer)) 0
        else s.memory a,
      offset := fun x => if x = file then s.offset file + size else s.offset x }
  | _ => s

/-- Modelled from the spec: the byte store after the events, in order. -/
def Store.replay (s : Store) (es : List Event) : Store :=
  es.foldl Store.step s

/-- The `len` bytes of user memory from address `a` on. -/
def Store.bytes_at (s : Store) (a len : Nat) : List Nat :=
  (List.range len).map (fun i => s.memory (a + i))

/-! ## Concrete inputs -/

/-- An environment in which user space ends at `0xc0000000`, the page at
`0x08048000` is the only mapped user page and is writable, the kernel maps
`0xc0000000` to `0xc0400000`, the literal `""` lies in the kernel image,
`filesys_open` answers `f`, and freed list nodes are readable or not as
`readable` says. -/
def sample_env (f : Nat) (readable : Bool) : Env where
  is_user_vaddr := fun a => decide (a < 3221225472)
  pagedir_get_page := fun a => if 134512640 ≤ a ∧ a < 134516736 then a + 3221225472 else 0
  empty_string := 3222274048
  TID_ERROR := -1
  filesys_create := fun _ _ => true
  filesys_remove := fun _ => true
  filesys_open := fun _ => f
  file_read := fun _ _ size => Int.ofNat size
  file_write := fun _ _ size => Int.ofNat size
  file_tell := fun _ => 0
  file_length := fun _ => 0
  input_getc := fun _ => 97
  process_execute := fun _ => (-1, [])
  process_wait := fun _ => -1
  freed_node_readable := readable
  user_word := fun _ => 0
  kernel_mapped := fun a => decide (3221225472 ≤ a ∧ a < 3225419776)
  page_writable := fun _ => true

/-- A process named `main` with a living parent that has opened nothing. -/
def fresh_machine : Machine where
  cur :=
    { name := ['m', 'a', 'i', 'n'],
      is_alive := true,
      exit_status := 0,
      parent_is_alive := true,
      open_file_number := 0,
      process_files := [],
      child_list := [] }
  trace := []

/-- A mapped user address (inside the page at `0x08048000`). -/
def good_ptr : Nat := 134512656

/-- An unmapped user address. -/
def bad_ptr : Nat := 4096

/-- The machine `fresh_machine` with the given counter and table. -/
def table_machine (n : Int) (l : List file_info) : Machine :=
  fresh_machine.set_files n l

/-- A process holding the records (2, 500), (3, 501), (4, 502). -/
def three_files : Machine :=
  table_machine 3
    [{ handle := 2, file := 500 }, { handle := 3, file := 501 }, { handle := 4, file := 502 }]

/-- The sample environment with the words `words` on the user stack from
address `esp` upwards (zero elsewhere); `filesys_open` answers file 503. -/
def frame_env (esp : Nat) (words : List Nat) : Env :=
  { sample_env 503 false with
    user_word := fun a => if esp ≤ a then words.getD ((a - esp) / 4) 0 else 0 }

/-- The sample environment in which `process_execute` answers `pid` and links
the entries `children` into the caller's `child_list`. -/
def spawn_env (pid : Int) (children : List child_info) : Env :=
  { sample_env 0 false with process_execute := fun _ => (pid, children) }

/-- The process `fresh_machine` with two earlier children, 5 (loaded) and 6
(not loaded), in its `child_list`. -/
def parent_machine : Machine :=
  { fresh_machine with
    cur := { fresh_machine.cur with
      child_list := [{ tid := 5, load_bool := true }, { tid := 6, load_bool := false }] } }

/-- A frame whose stack pointer is not mapped. -/
def bad_frame : intr_frame := { esp := 4096, eax := 7 }

/-- The process `fresh_machine` whose parent has gone, with the old value 0 in
`exit_status`. -/
def orphan_machine : Machine :=
  { fresh_machine with cur := { fresh_machine.cur with parent_is_alive := false } }

/-- Two files opened and the first handle closed: the calls that lead to the
table with the single record (3, 501) and the counter at 1. -/
def shadow_calls : List (Env × Call) :=
  [(sample_env 500 false, Call.open good_ptr),
   (sample_env 501 false, Call.open good_ptr),
   (sample_env 0 false, Call.close 2)]

/-- The machine after `shadow_calls` on `fresh_machine`. -/
def shadow_machine : Machine :=
  { cur := (table_machine 1 [{ handle := 3, file := 501 }]).cur,
    trace :=
      [Event.lock_acquire, Event.filesys_open good_ptr, Event.lock_release,
       Event.lock_acquire, Event.filesys_open good_ptr, Event.lock_release,
       Event.file_close 500] }

/-- The events of the round trip with the name at `good_ptr + 32`, the data at
`good_ptr` and the buffer at `good_ptr + 16`, two bytes long, run on
`shadow_machine` with `filesys_open` answering file 502. -/
def shadow_round_trip_events : List Event :=
  [Event.filesys_create (good_ptr + 32) 0,
   Event.lock_acquire, Event.filesys_open (good_ptr + 32), Event.lock_release,
   Event.lock_acquire, Event.file_write 501 good_ptr 2, Event.lock_release,
   Event.file_seek 501 0,
   Event.lock_acquire, Event.file_read 501 (good_ptr + 16) 2, Event.lock_release,
   Event.file_close 501]

/-- A byte store in which every file is empty and at offset 0, and user memory
holds the bytes 120, 121 at `good_ptr` and zeros elsewhere. -/
def blank_store : Store where
  content := fun _ => []
  offset := fun _ => 0
  memory := fun a => if a = good_ptr then 120 else if a = good_ptr + 1 then 121 else 0

/-- A byte store as `blank_store`, but the file behind file object 501 holds
the bytes 48, 49, 50 and its offset is 3 (it was written through handle 3
before). -/
def used_store : Store where
  content := fun x => if x = 501 then [48, 49, 50] else []
  offset := fun x => if x = 501 then 3 else 0
  memory := fun a => if a = good_ptr then 120 else if a = good_ptr + 1 then 121 else 0

/-- Two files opened, the first handle closed, a third file opened. -/
def reopen_calls : List (Env × Call) :=
  [(sample_env 500 false, Call.open good_ptr),
   (sample_env 501 false, Call.open good_ptr),
   (sample_env 0 false, Call.close 2),
   (sample_env 502 false, Call.open good_ptr)]

/-- One file opened and closed again, then another file opened. -/
def reuse_calls : List (Env × Call) :=
  [(sample_env 500 false, Call.open good_ptr),
   (sample_env 0 false, Call.close 2),
   (sample_env 502 false, Call.open good_ptr)]

/-- Three names, each with the environment that answers its `filesys_open`. -/
def three_opens : List (Env × Nat) :=
  [(sample_env 500 false, good_ptr), (sample_env 501 false, good_ptr),
   (sample_env 502 false, good_ptr)]

/-! ## The pointer validator -/

/-- C1: `validate_pointer a` is true exactly when `a` is not null, is a user
virtual address, and has a page mapped in the current page directory; in every
other case it is false. -/
theorem validate_pointer_iff (env : Env) (a : Nat) :
    (validate_pointer env a = true ↔
      (a ≠ 0 ∧ env.is_user_vaddr a = true ∧ env.pagedir_get_page a ≠ 0)) ∧
    (validate_pointer env a = false ↔
      (a = 0 ∨ env.is_user_vaddr a = false ∨ env.pagedir_get_page a = 0)) := by
  unfold validate_pointer
  by_cases h0 : a = 0
  · simp [h0]
  · by_cases h1 : env.is_user_vaddr a = true
    · by_cases h2 : env.pagedir_get_page a = 0
      · simp [h0, h1, h2]
      · simp [h0, h1, h2]
    · simp [h0, h1]

/-! ## Facts about the scans and the single calls -/

theorem exit_not_returned {α : Type} (status : Int) (m : Machine) (v : α) (m1 : Machine) :
    (exit status m : Result α) ≠ Result.returned v m1 := by
  intro h
  simp [exit] at h

theorem find_file_absent (fd : Int) (l : List file_info)
    (h : ∀ r ∈ l, r.handle ≠ fd) : find_file fd l = 0 := by
  induction l with
  | nil => rfl
  | cons r rest ih =>
    have hr : r.handle ≠ fd := h r (List.mem_cons_self r rest)
    have hrest : ∀ x ∈ rest, x.handle ≠ fd := fun x hx => h x (List.mem_cons_of_mem r hx)
    simp [find_file, hr, ih hrest]

theorem find_file_split (fd : Int) (l : List file_info)
    (hnn : ∀ r ∈ l, r.file ≠ 0) (hex : ∃ r ∈ l, r.handle = fd) :
    ∃ l1 r l2, l = l1 ++ r :: l2 ∧ r.handle = fd ∧ (∀ x ∈ l1, x.handle ≠ fd) ∧
      find_file fd l = r.file ∧ r.file ≠ 0 ∧ list_remove fd l = l1 ++ l2 := by
  induction l with
  | nil =>
    obtain ⟨r, hr, _⟩ := hex
    cases hr
  | cons a rest ih =>
    by_cases ha : a.handle = fd
    · refine ⟨[], a, rest, rfl, ha, ?_, ?_, hnn a (List.mem_cons_self a rest), ?_⟩
      · intro x hx
        cases hx
      · simp [find_file, ha]
      · simp [list_remove, ha]
    · have hex1 : ∃ r ∈ rest, r.handle = fd := by
        obtain ⟨r, hr, hrfd⟩ := hex
        rcases List.mem_cons.mp hr with h | h
        · exact absurd (h ▸ hrfd) ha
        · exact ⟨r, h, hrfd⟩
      have hnn1 : ∀ r ∈ rest, r.file ≠ 0 := fun x hx => hnn x (List.mem_cons_of_mem a hx)
      obtain ⟨l1, r, l2, hl, hrfd, hl1, hfind, hfile, hrem⟩ := ih hnn1 hex1
      refine ⟨a :: l1, r, l2, by simp [hl], hrfd, ?_, ?_, hfile, ?_⟩
      · intro x hx
        rcases List.mem_cons.mp hx with h | h
        · exact h ▸ ha
        · exact hl1 x h
      · simp [find_file, ha, hfind]
      · simp [list_remove, ha, hrem]

theorem validate_pointer_user (env : Env) (a : Nat) (h : validate_pointer env a = true) :
    a ≠ 0 ∧ env.is_user_vaddr a = true := by
  unfold validate_pointer at h
  split_ifs at h with hc
  exact ⟨hc.1, hc.2.1⟩

theorem open_success (env : Env) (file : Nat) (m : Machine)
    (hv : validate_pointer env file = true) (hf : env.filesys_open file ≠ 0)
    (hne : file ≠ env.empty_string) :
    Syscall.open env file m = Result.returned (m.cur.open_file_number + 2)
      { cur := { m.cur with
                  open_file_number := m.cur.open_file_number + 1,
                  process_files := m.cur.process_files ++
                    [{ handle := m.cur.open_file_number + 2, file := env.filesys_open file }] },
        trace := m.trace ++
          [Event.lock_acquire, Event.filesys_open file, Event.lock_release] } := by
  unfold Syscall.open
  dsimp only
  rw [if_neg (validate_pointer_user env file hv).1, if_neg (by rw [hv]; decide), if_neg (by
    intro h
    rcases h with h | h
    · exact hf h
    · exact hne h)]
  simp [Machine.emit, Machine.set_files]

/-! ## Pointer arguments that fail validation -/

/-- C2, as the code has it: a name of `create` that is null or fails
`validate_pointer`, a command line of `exec` that fails it, a non-null name of
`open` that fails it, a buffer of `read` with `fd` other than the console input
that fails it, and a buffer of `write` with `fd` other than the console output
that fails it, each end the call in `exit (-1)` on the unchanged machine, and
`exit` never hands a value back; `open` of the null name returns `-1` on the
unchanged machine instead. -/
theorem invalid_pointer_exits (env : Env) (m : Machine) :
    (∀ file initial_size, (file = 0 ∨ validate_pointer env file = false) →
      create env file initial_size m = exit (-1) m) ∧
    (∀ cmd_line, validate_pointer env cmd_line = false → exec env cmd_line m = exit (-1) m) ∧
    (∀ file, file ≠ 0 → validate_pointer env file = false →
      Syscall.open env file m = exit (-1) m) ∧
    Syscall.open env 0 m = Result.returned (-1) m ∧
    (∀ fd buffer size, fd ≠ STDIN_FILENO → validate_pointer env buffer = false →
      read env fd buffer size m = exit (-1) m) ∧
    (∀ fd buffer size, fd ≠ STDOUT_FILENO → validate_pointer env buffer = false →
      write env fd buffer size m = exit (-1) m) ∧
    (∀ (α : Type) (v : α) (m1 : Machine), (exit (-1) m : Result α) ≠ Result.returned v m1) := by
  refine ⟨?_, ?_, ?_, ?_, ?_, ?_, ?_⟩
  · intro file initial_size h
    unfold create
    rw [if_pos h]
  · intro cmd_line h
    unfold exec
    rw [if_pos h]
  · intro file h0 h
    unfold Syscall.open
    rw [if_neg h0, if_pos h]
  · unfold Syscall.open
    rw [if_pos rfl]
  · intro fd buffer size hfd h
    unfold read
    rw [if_neg hfd, if_pos h]
  · intro fd buffer size hfd h
    unfold write
    rw [if_neg hfd, if_pos h]
  · intro α v m1
    exact exit_not_returned (-1) m v m1

/-- C2, witness: on the sample machine the unmapped address `bad_ptr` given to
`create`, `exec`, `open`, `read` (fd 5) and `write` (fd 5) ends each call in
`exit (-1)`. -/
theorem invalid_pointer_exits_witness :
    validate_pointer (sample_env 500 false) bad_ptr = false ∧
    create (sample_env 500 false) bad_ptr 0 fresh_machine = exit (-1) fresh_machine ∧
    exec (sample_env 500 false) bad_ptr fresh_machine = exit (-1) fresh_machine ∧
    Syscall.open (sample_env 500 false) bad_ptr fresh_machine = exit (-1) fresh_machine ∧
    read (sample_env 500 false) 5 bad_ptr 8 fresh_machine = exit (-1) fresh_machine ∧
    write (sample_env 500 false) 5 bad_ptr 8 fresh_machine = exit (-1) fresh_machine :=
  have hbad : validate_pointer (sample_env 500 false) bad_ptr = false := by decide
  have h := invalid_pointer_exits (sample_env 500 false) fresh_machine
  ⟨hbad, h.1 bad_ptr 0 (Or.inr hbad), h.2.1 bad_ptr hbad,
    h.2.2.1 bad_ptr (by decide) hbad,
    h.2.2.2.2.1 5 bad_ptr 8 (by decide) hbad,
    h.2.2.2.2.2.1 5 bad_ptr 8 (by decide) hbad⟩

/-- C2, counterexample: the null pointer fails `validate_pointer`, yet `open`
of the null name returns `-1` to the caller instead of ending in `exit (-1)`;
and `read` on the console input (fd 0) and `write` on the console output
(fd 1) with the null buffer and size 0 return 0 to the caller. -/
theorem null_pointer_returns :
    validate_pointer (sample_env 500 false) 0 = false ∧
    Syscall.open (sample_env 500 false) 0 fresh_machine = Result.returned (-1) fresh_machine ∧
    Syscall.open (sample_env 500 false) 0 fresh_machine ≠ exit (-1) fresh_machine ∧
    read (sample_env 500 false) 0 0 0 fresh_machine = Result.returned 0 fresh_machine ∧
    write (sample_env 500 false) 1 0 0 fresh_machine =
      Result.returned 0 (fresh_machine.emit (Event.putbuf 0 0)) := by
  decide

/-! ## What a returning call did to the table -/

theorem open_returned (env : Env) (file : Nat) (m : Machine) (v : Int) (m1 : Machine)
    (h : Syscall.open env file m = Result.returned v m1) :
    (v = -1 ∧ m1.cur = m.cur) ∨
    (v = m.cur.open_file_number + 2 ∧ env.filesys_open file ≠ 0 ∧
      m1.cur.open_file_number = m.cur.open_file_number + 1 ∧
      m1.cur.process_files = m.cur.process_files ++
        [{ handle := m.cur.open_file_number + 2, file := env.filesys_open file }]) := by
  unfold Syscall.open at h
  dsimp only at h
  split_ifs at h with h0 h1 h2
  · injection h with hv hm
    exact Or.inl ⟨hv.symm, by rw [← hm]⟩
  · exact absurd h (exit_not_returned _ _ _ _)
  · injection h with hv hm
    exact Or.inl ⟨hv.symm, by rw [← hm]; rfl⟩
  · injection h with hv hm
    refine Or.inr ⟨hv.symm, fun hf => h2 (Or.inl hf), ?_, ?_⟩
    · rw [← hm]; rfl
    · rw [← hm]; rfl

theorem close_all_returned (env : Env) (l : List file_info) (m : Machine) (m1 : Machine)
    (h : close_all env l m = Result.returned () m1) :
    (l = [] ∧ m1 = m) ∨
    (l ≠ [] ∧ m1.cur.process_files = [] ∧
      m1.cur.open_file_number = m.cur.open_file_number - (l.length : Int)) := by
  induction l generalizing m with
  | nil =>
    simp only [close_all] at h
    injection h with _ hm
    exact Or.inl ⟨rfl, hm.symm⟩
  | cons r rest ih =>
    right
    refine ⟨List.cons_ne_nil r rest, ?_⟩
    simp only [close_all] at h
    split_ifs at h with hr
    rcases ih _ h with ⟨hnil, hm⟩ | ⟨_, hfiles, hnum⟩
    · subst hnil
      subst hm
      refine ⟨rfl, ?_⟩
      simp [Machine.set_files, Machine.emit]
    · refine ⟨hfiles, ?_⟩
      rw [hnum]
      simp only [Machine.set_files, Machine.emit, List.length_cons]
      push_cast
      ring

theorem close_consistent (env : Env) (fd : Int) (m : Machine) (m1 : Machine)
    (hinv : Consistent m) (h : close env fd m = Result.returned () m1) : Consistent m1 := by
  unfold close at h
  dsimp only at h
  split_ifs at h with hfd hfind
  · injection h with _ hm
    rw [← hm]
    exact hinv
  · injection h with _ hm
    have hex : ∃ r ∈ m.cur.process_files, r.handle = fd := by
      by_contra hno
      push_neg at hno
      exact hfind (find_file_absent fd _ hno)
    obtain ⟨l1, r, l2, hl, _, _, _, _, hrem⟩ :=
      find_file_split fd m.cur.process_files (fun x hx => (hinv.2 x hx).2) hex
    have hfiles : m1.cur.process_files = l1 ++ l2 := by
      rw [← hm]
      exact hrem
    have hnum : m1.cur.open_file_number = m.cur.open_file_number - 1 := by
      rw [← hm]
      rfl
    refine ⟨?_, ?_⟩
    · rw [hnum, hfiles, hinv.1, hl]
      simp only [List.length_append, List.length_cons]
      push_cast
      ring
    · intro x hx
      rw [hfiles] at hx
      apply hinv.2 x
      rw [hl]
      rcases List.mem_append.mp hx with hx1 | hx2
      · exact List.mem_append_left _ hx1
      · exact List.mem_append_right _ (List.mem_cons_of_mem r hx2)
  · rcases close_all_returned env _ m m1 h with ⟨_, hm⟩ | ⟨_, hfiles, hnum⟩
    · rw [hm]
      exact hinv
    · refine ⟨?_, ?_⟩
      · rw [hnum, hfiles, hinv.1]
        simp
      · intro x hx
        rw [hfiles] at hx
        cases hx

theorem open_consistent (env : Env) (file : Nat) (m : Machine) (v : Int) (m1 : Machine)
    (hinv : Consistent m) (h : Syscall.open env file m = Result.returned v m1) :
    Consistent m1 ∧ (v = -1 ∨ 2 ≤ v) := by
  have hlen : (0 : Int) ≤ m.cur.open_file_number := by
    rw [hinv.1]
    exact Int.natCast_nonneg _
  rcases open_returned env file m v m1 h with ⟨hv, hcur⟩ | ⟨hv, hf, hnum, hfiles⟩
  · refine ⟨?_, Or.inl hv⟩
    unfold Consistent
    rw [hcur]
    exact hinv
  · refine ⟨⟨?_, ?_⟩, Or.inr (by omega)⟩
    · rw [hnum, hfiles, hinv.1]
      simp
    · intro x hx
      rw [hfiles] at hx
      rcases List.mem_append.mp hx with hx1 | hx2
      · exact hinv.2 x hx1
      · have hx3 : x = { handle := m.cur.open_file_number + 2, file := env.filesys_open file } := by
          simpa using hx2
        rw [hx3]
        exact ⟨by simp only; omega, hf⟩

theorem consistent_of_cur (m m1 : Machine) (hcur : m1.cur = m.cur) (hinv : Consistent m) :
    Consistent m1 := by
  unfold Consistent
  rw [hcur]
  exact hinv

theorem map_returned {α β : Type} (f : α → β) (r : Result α) (v : β) (m1 : Machine)
    (h : r.map f = Result.returned v m1) : ∃ w, r = Result.returned w m1 ∧ f w = v := by
  cases r with
  | returned w m2 =>
    simp only [Result.map] at h
    injection h with hv hm
    exact ⟨w, by rw [hm], hv⟩
  | exited m2 => simp [Result.map] at h
  | powered_off m2 => simp [Result.map] at h
  | undefined m2 => simp [Result.map] at h
  | page_fault m2 => simp [Result.map] at h

theorem read_console_trace (env : Env) (buffer : Nat) (l : List Nat) (m : Machine) :
    ∃ l2 : List Nat, (read_console env buffer l m).machine =
      { cur := m.cur,
        trace := m.trace ++ l2.flatMap (fun i =>
          [Event.input_getc,
           Event.store_byte ((buffer + i) % 4294967296) (env.input_getc i)]) } := by
  induction l generalizing m with
  | nil => exact ⟨[], by simp [read_console, Result.machine]⟩
  | cons i rest ih =>
    simp only [read_console]
    split_ifs
    · obtain ⟨l2, h2⟩ := ih ((m.emit Event.input_getc).emit
        (Event.store_byte ((buffer + i) % 4294967296) (env.input_getc i)))
      exact ⟨i :: l2, by rw [h2]; simp [Machine.emit]⟩
    · exact ⟨[i], by simp [Result.machine, Machine.emit]⟩
    · exact ⟨[i], by simp [Result.machine, Machine.emit]⟩

theorem read_console_cur (env : Env) (buffer : Nat) (l : List Nat) (m : Machine) :
    (read_console env buffer l m).machine.cur = m.cur := by
  obtain ⟨l2, h2⟩ := read_console_trace env buffer l m
  rw [h2]

theorem filesize_cur (env : Env) (fd : Int) (m : Machine) (v : Int) (m1 : Machine)
    (h : filesize env fd m = Result.returned v m1) : m1.cur = m.cur := by
  unfold filesize at h
  dsimp only at h
  split_ifs at h <;> injection h with _ hm <;> (rw [← hm]; try rfl)

theorem seek_cur (fd : Int) (position : Nat) (m : Machine) (m1 : Machine)
    (h : seek fd position m = Result.returned () m1) : m1.cur = m.cur := by
  unfold seek at h
  dsimp only at h
  split_ifs at h <;> injection h with _ hm <;> (rw [← hm]; try rfl)

theorem tell_cur (env : Env) (fd : Int) (m : Machine) (v : Nat) (m1 : Machine)
    (h : tell env fd m = Result.returned v m1) : m1.cur = m.cur := by
  unfold tell at h
  dsimp only at h
  split_ifs at h <;> injection h with _ hm <;> (rw [← hm]; try rfl)

theorem read_cur (env : Env) (fd : Int) (buffer size : Nat) (m : Machine) (v : Int)
    (m1 : Machine) (h : read env fd buffer size m = Result.returned v m1) : m1.cur = m.cur := by
  unfold read at h
  dsimp only at h
  split_ifs at h
  · obtain ⟨w, hw, _⟩ := map_returned _ _ _ _ h
    have hm : m1 = (read_console env buffer (List.range size) m).machine := by
      rw [hw]
      rfl
    rw [hm]
    exact read_console_cur env buffer _ m
  · exact absurd h (exit_not_returned _ _ _ _)
  · injection h with _ hm
    rw [← hm]
    rfl
  · injection h with _ hm
    rw [← hm]
    rfl

theorem write_cur (env : Env) (fd : Int) (buffer size : Nat) (m : Machine) (v : Int)
    (m1 : Machine) (h : write env fd buffer size m = Result.returned v m1) : m1.cur = m.cur := by
  unfold write at h
  dsimp only at h
  split_ifs at h
  · injection h with _ hm
    rw [← hm]
    rfl
  · exact absurd h (exit_not_returned _ _ _ _)
  · injection h with _ hm
    rw [← hm]
    rfl
  · injection h with _ hm
    rw [← hm]
    rfl

theorem perform_consistent (env : Env) (c : Call) (m : Machine) (v : Option Int) (m1 : Machine)
    (hinv : Consistent m) (h : c.perform env m = Result.returned v m1) :
    Consistent m1 ∧ (∀ file x, c = Call.open file → v = some x → x = -1 ∨ 2 ≤ x) := by
  cases c with
  | «open» file =>
    obtain ⟨w, hw, hv⟩ := map_returned _ _ _ _ h
    obtain ⟨hc, hge⟩ := open_consistent env file m w m1 hinv hw
    refine ⟨hc, ?_⟩
    intro _ x _ hx
    rw [← hv] at hx
    injection hx with hx
    rw [← hx]
    exact hge
  | close fd =>
    obtain ⟨w, hw, _⟩ := map_returned _ _ _ _ h
    exact ⟨close_consistent env fd m m1 hinv hw, fun _ _ hc => by cases hc⟩
  | filesize fd =>
    obtain ⟨w, hw, _⟩ := map_returned _ _ _ _ h
    exact ⟨consistent_of_cur m m1 (filesize_cur env fd m w m1 hw) hinv, fun _ _ hc => by cases hc⟩
  | read fd buffer size =>
    obtain ⟨w, hw, _⟩ := map_returned _ _ _ _ h
    exact ⟨consistent_of_cur m m1 (read_cur env fd buffer size m w m1 hw) hinv,
      fun _ _ hc => by cases hc⟩
  | write fd buffer size =>
    obtain ⟨w, hw, _⟩ := map_returned _ _ _ _ h
    exact ⟨consistent_of_cur m m1 (write_cur env fd buffer size m w m1 hw) hinv,
      fun _ _ hc => by cases hc⟩
  | seek fd position =>
    obtain ⟨w, hw, _⟩ := map_returned _ _ _ _ h
    exact ⟨consistent_of_cur m m1 (seek_cur fd position m m1 hw) hinv, fun _ _ hc => by cases hc⟩
  | tell fd =>
    obtain ⟨w, hw, _⟩ := map_returned _ _ _ _ h
    exact ⟨consistent_of_cur m m1 (tell_cur env fd m w m1 hw) hinv, fun _ _ hc => by cases hc⟩

theorem fresh_consistent (m : Machine) (h : Fresh m) : Consistent m := by
  unfold Consistent
  rw [h.1, h.2]
  exact ⟨rfl, fun r hr => by cases hr⟩

theorem run_cons (env : Env) (c : Call) (rest : List (Env × Call)) (m : Machine)
    (rets : List (Option Int)) (m2 : Machine) (h : run ((env, c) :: rest) m = some (rets, m2)) :
    ∃ v m1 vs, c.perform env m = Result.returned v m1 ∧ run rest m1 = some (vs, m2) ∧
      rets = v :: vs := by
  simp only [run] at h
  cases hp : c.perform env m with
  | returned v m1 =>
    rw [hp] at h
    dsimp only at h
    cases hr : run rest m1 with
    | none => rw [hr] at h; cases h
    | some p =>
      rw [hr] at h
      obtain ⟨vs, m3⟩ := p
      dsimp only at h
      injection h with h
      injection h with h1 h2
      exact ⟨v, m1, vs, rfl, h2 ▸ hr, h1.symm⟩
  | exited m1 => rw [hp] at h; cases h
  | powered_off m1 => rw [hp] at h; cases h
  | undefined m1 => rw [hp] at h; cases h
  | page_fault m1 => rw [hp] at h; cases h

theorem run_consistent (calls : List (Env × Call)) (m : Machine) (rets : List (Option Int))
    (m2 : Machine) (hinv : Consistent m) (h : run calls m = some (rets, m2)) :
    Consistent m2 ∧ ∀ x ∈ opened_handles calls rets, 2 ≤ x := by
  induction calls generalizing m rets with
  | nil =>
    simp only [run] at h
    injection h with h
    injection h with h1 h2
    rw [← h2, ← h1]
    exact ⟨hinv, fun x hx => by cases hx⟩
  | cons p rest ih =>
    obtain ⟨env, c⟩ := p
    obtain ⟨v, m1, vs, hp, hr, hrets⟩ := run_cons env c rest m rets m2 h
    obtain ⟨hc1, hopen⟩ := perform_consistent env c m v m1 hinv hp
    obtain ⟨hc2, hrest⟩ := ih m1 vs hc1 hr
    refine ⟨hc2, ?_⟩
    rw [hrets]
    intro x hx
    cases c with
    | «open» file =>
      cases v with
      | none =>
        simp only [opened_handles] at hx
        exact hrest x hx
      | some w =>
        simp only [opened_handles] at hx
        split_ifs at hx with hw
        · exact hrest x hx
        · rcases List.mem_cons.mp hx with hxw | hxr
          · rcases hopen file w rfl rfl with h1 | h2
            · exact absurd h1 hw
            · rw [hxw]; exact h2
          · exact hrest x hxr
    | close fd => simp only [opened_handles] at hx; exact hrest x hx
    | filesize fd => simp only [opened_handles] at hx; exact hrest x hx
    | read fd buffer size => simp only [opened_handles] at hx; exact hrest x hx
    | write fd buffer size => simp only [opened_handles] at hx; exact hrest x hx
    | seek fd position => simp only [opened_handles] at hx; exact hrest x hx
    | tell fd => simp only [opened_handles] at hx; exact hrest x hx

/-! ## Handles given out by `open` -/

/-- C3, at a concrete run: from a fresh process, opening two files (handles 2
and 3), closing handle 2 and opening a third file leaves two records with
handle 3 in the table. -/
theorem duplicate_handle_after_close :
    Fresh fresh_machine ∧
    ∃ m, run reopen_calls fresh_machine = some ([some 2, some 3, none, some 3], m) ∧
      m.cur.process_files = [{ handle := 3, file := 501 }, { handle := 3, file := 502 }] ∧
      ¬ (handles m).Nodup := by
  refine ⟨⟨rfl, rfl⟩, table_machine 2 [{ handle := 3, file := 501 }, { handle := 3, file := 502 }]
    |>.emit Event.lock_acquire |>.emit (Event.filesys_open good_ptr) |>.emit Event.lock_release
    |>.emit Event.lock_acquire |>.emit (Event.filesys_open good_ptr) |>.emit Event.lock_release
    |>.emit (Event.file_close 500)
    |>.emit Event.lock_acquire |>.emit (Event.filesys_open good_ptr) |>.emit Event.lock_release,
    ?_, ?_, ?_⟩
  · decide
  · rfl
  · decide

/-- C4, at a concrete run: from a fresh process, a file is opened with handle
2 and closed, and the next open returns handle 2 again, so the handles of the
successful opens, `[2, 2]`, are not strictly increasing. -/
theorem freed_handle_reused :
    Fresh fresh_machine ∧
    ∃ m, run reuse_calls fresh_machine = some ([some 2, none, some 2], m) ∧
      opened_handles reuse_calls [some 2, none, some 2] = [2, 2] ∧
      ¬ (opened_handles reuse_calls [some 2, none, some 2]).Pairwise (fun a b => a < b) := by
  refine ⟨⟨rfl, rfl⟩, table_machine 1 [{ handle := 2, file := 502 }]
    |>.emit Event.lock_acquire |>.emit (Event.filesys_open good_ptr) |>.emit Event.lock_release
    |>.emit (Event.file_close 500)
    |>.emit Event.lock_acquire |>.emit (Event.filesys_open good_ptr) |>.emit Event.lock_release,
    ?_, ?_, ?_⟩
  · decide
  · decide
  · decide

theorem opens_from (l : List (Env × Nat)) (n : Nat) (m : Machine) (rets : List (Option Int))
    (m2 : Machine) (hnum : m.cur.open_file_number = (n : Int))
    (hrun : run (l.map (fun p => (p.1, Call.open p.2))) m = some (rets, m2))
    (hsucc : ∀ v ∈ rets, v ≠ some (-1)) :
    rets = (List.range' n l.length).map (fun (i : Nat) => some ((i : Int) + 2)) ∧
    m2.cur.process_files = m.cur.process_files ++
      (l.enumFrom n).map
        (fun p => ({ handle := (p.1 : Int) + 2, file := p.2.1.filesys_open p.2.2 } : file_info)) ∧
    m2.cur.open_file_number = ((n + l.length : Nat) : Int) := by
  induction l generalizing n m rets with
  | nil =>
    simp only [List.map_nil, run] at hrun
    injection hrun with hrun
    injection hrun with h1 h2
    rw [← h1, ← h2]
    simp [hnum]
  | cons p rest ih =>
    obtain ⟨env, file⟩ := p
    simp only [List.map_cons] at hrun
    obtain ⟨v, m1, vs, hp, hr, hrets⟩ := run_cons env (Call.open file) _ m rets m2 hrun
    obtain ⟨w, hw, hv⟩ := map_returned _ _ _ _ hp
    have hwne : w ≠ -1 := by
      intro hw1
      apply hsucc v (by rw [hrets]; exact List.mem_cons_self v vs)
      rw [← hv, hw1]
    have hvs : ∀ x ∈ vs, x ≠ some (-1) := fun x hx =>
      hsucc x (by rw [hrets]; exact List.mem_cons_of_mem v hx)
    rcases open_returned env file m w m1 hw with ⟨h1, _⟩ | ⟨hwv, _, hnum1, hfiles1⟩
    · exact absurd h1 hwne
    · have hn1 : m1.cur.open_file_number = ((n + 1 : Nat) : Int) := by
        rw [hnum1, hnum]
        push_cast
        rfl
      obtain ⟨hvs2, hfiles2, hnum2⟩ := ih (n + 1) m1 vs hn1 hr hvs
      refine ⟨?_, ?_, ?_⟩
      · rw [hrets, hvs2, ← hv, hwv, hnum]
        simp [List.range'_succ]
      · rw [hfiles2, hfiles1, hnum]
        simp [List.enumFrom_cons]
      · rw [hnum2]
        simp only [List.length_cons]
        congr 1
        omega

theorem opens_run (l : List (Env × Nat)) (n : Nat) (m : Machine)
    (hnum : m.cur.open_file_number = (n : Int)) (hok : ∀ p ∈ l, open_succeeds p.1 p.2) :
    ∃ m2, run (l.map (fun p => (p.1, Call.open p.2))) m =
      some ((List.range' n l.length).map (fun (i : Nat) => some ((i : Int) + 2)), m2) := by
  induction l generalizing n m with
  | nil => exact ⟨m, rfl⟩
  | cons p rest ih =>
    obtain ⟨env, file⟩ := p
    obtain ⟨hv, hf, hne⟩ := hok (env, file) (List.mem_cons_self _ _)
    have hrest : ∀ q ∈ rest, open_succeeds q.1 q.2 := fun q hq =>
      hok q (List.mem_cons_of_mem _ hq)
    obtain ⟨m2, hm2⟩ := ih (n + 1)
      { cur := { m.cur with
                  open_file_number := m.cur.open_file_number + 1,
                  process_files := m.cur.process_files ++
                    [{ handle := m.cur.open_file_number + 2, file := env.filesys_open file }] },
        trace := m.trace ++
          [Event.lock_acquire, Event.filesys_open file, Event.lock_release] }
      (by simp only [hnum]; push_cast; rfl) hrest
    refine ⟨m2, ?_⟩
    simp only [List.map_cons, run, Call.perform, open_success env file m hv hf hne, Result.map]
    dsimp only at hm2
    rw [hm2]
    simp only [List.length_cons, List.range'_succ, List.map_cons, hnum]

/-- C5: from a fresh process, `N` consecutive `open` calls that each meet the
condition under which `open` makes a record all return, and return the handles
`2, 3, ..., N+1` in that order; and whenever `N` consecutive `open` calls all
return a value other than `-1`, these values are `2, 3, ..., N+1` in that order,
the table afterwards holds, front to back, the `N` records with these handles
and the files `filesys_open` answered, and `open_file_number` is `N`. -/
theorem consecutive_opens (l : List (Env × Nat)) (m : Machine) (hfresh : Fresh m) :
    ((∀ p ∈ l, open_succeeds p.1 p.2) →
      ∃ m2, run (l.map (fun p => (p.1, Call.open p.2))) m =
        some ((List.range l.length).map (fun (i : Nat) => some ((i : Int) + 2)), m2)) ∧
    (∀ rets m2, run (l.map (fun p => (p.1, Call.open p.2))) m = some (rets, m2) →
      (∀ v ∈ rets, v ≠ some (-1)) →
      rets = (List.range l.length).map (fun (i : Nat) => some ((i : Int) + 2)) ∧
      m2.cur.process_files =
        l.enum.map
          (fun p =>
            ({ handle := (p.1 : Int) + 2, file := p.2.1.filesys_open p.2.2 } : file_info)) ∧
      m2.cur.open_file_number = (l.length : Int)) := by
  have hnum : m.cur.open_file_number = ((0 : Nat) : Int) := by rw [hfresh.2]; rfl
  refine ⟨?_, ?_⟩
  · intro hok
    obtain ⟨m2, hm2⟩ := opens_run l 0 m hnum hok
    exact ⟨m2, by rw [hm2, List.range_eq_range']⟩
  · intro rets m2 hrun hsucc
    obtain ⟨h1, h2, h3⟩ := opens_from l 0 m rets m2 hnum hrun hsucc
    refine ⟨?_, ?_, ?_⟩
    · rw [h1, List.range_eq_range']
    · rw [h2, hfresh.1]
      rfl
    · rw [h3]
      simp

/-- C5, witness: three opens that meet the condition, on the fresh sample
machine, return 2, 3, 4 and leave the records (2, 500), (3, 501), (4, 502) with
the counter at 3. -/
theorem consecutive_opens_witness :
    ∃ m2, run (three_opens.map (fun p => (p.1, Call.open p.2))) fresh_machine =
        some ([some 2, some 3, some 4], m2) ∧
      m2.cur.process_files =
        [{ handle := 2, file := 500 }, { handle := 3, file := 501 }, { handle := 4, file := 502 }] ∧
      m2.cur.open_file_number = 3 := by
  have h := consecutive_opens three_opens fresh_machine ⟨rfl, rfl⟩
  obtain ⟨m2, hm2⟩ := h.1 (by decide)
  have h2 := h.2 _ m2 hm2 (by decide)
  exact ⟨m2, hm2, h2.2.1, h2.2.2⟩

/-- C6: in every state a fresh process reaches by a sequence of calls on its
table (`open`, `close (fd)`, `close (-1)`, and also `filesize`, `read`, `write`,
`seek`, `tell`) that all return, every handle a successful `open` returned is at
least 2 and every record of the table has a handle of at least 2, so neither 0
nor 1 is ever given out or held. -/
theorem handles_at_least_two (calls : List (Env × Call)) (m : Machine)
    (rets : List (Option Int)) (m2 : Machine) (hfresh : Fresh m)
    (hrun : run calls m = some (rets, m2)) :
    (∀ x ∈ opened_handles calls rets, 2 ≤ x) ∧
    (∀ r ∈ m2.cur.process_files, 2 ≤ r.handle ∧ r.handle ≠ 0 ∧ r.handle ≠ 1) := by
  obtain ⟨hc, hopen⟩ := run_consistent calls m rets m2 (fresh_consistent m hfresh) hrun
  refine ⟨hopen, ?_⟩
  intro r hr
  have h2 : 2 ≤ r.handle := (hc.2 r hr).1
  exact ⟨h2, by omega, by omega⟩

/-- C6, witness: on the run that opens, closes handle 2 and opens again, the
handles returned and the record left all are at least 2. -/
theorem handles_at_least_two_witness :
    ∃ m2, run reuse_calls fresh_machine = some ([some 2, none, some 2], m2) ∧
      (∀ x ∈ opened_handles reuse_calls [some 2, none, some 2], 2 ≤ x) ∧
      (∀ r ∈ m2.cur.process_files, 2 ≤ r.handle ∧ r.handle ≠ 0 ∧ r.handle ≠ 1) := by
  have hrun : run reuse_calls fresh_machine = some ([some 2, none, some 2],
      table_machine 1 [{ handle := 2, file := 502 }]
      |>.emit Event.lock_acquire |>.emit (Event.filesys_open good_ptr)
      |>.emit Event.lock_release
      |>.emit (Event.file_close 500)
      |>.emit Event.lock_acquire |>.emit (Event.filesys_open good_ptr)
      |>.emit Event.lock_release) := by
    decide
  have h := handles_at_least_two reuse_calls fresh_machine _ _ ⟨rfl, rfl⟩ hrun
  exact ⟨_, hrun, h.1, h.2⟩

/-! ## `close` -/

theorem close_all_readable (env : Env) (hread : env.freed_node_readable = true)
    (l : List file_info) (m : Machine) :
    close_all env l m = Result.returned ()
      (if l = [] then m
       else
        { cur := { m.cur with open_file_number := m.cur.open_file_number - (l.length : Int),
                              process_files := [] },
          trace := m.trace ++ l.map (fun r => Event.file_close r.file) }) := by
  induction l generalizing m with
  | nil => simp [close_all]
  | cons r rest ih =>
    simp only [close_all, hread, if_true, ih]
    cases rest with
    | nil => simp [Machine.set_files, Machine.emit]
    | cons r2 rest2 =>
      simp only [Machine.set_files, Machine.emit, List.length_cons, List.map_cons]
      simp only [List.append_assoc, List.singleton_append, reduceCtorEq, if_false]
      congr 3
      push_cast
      ring

/-- C7, at a concrete state: with one open file (handle 2) and an allocator
that does not keep a freed record readable, `close (-1)` closes the file,
decrements the counter, unlinks and frees the record, and then steps to the
next node through the freed record: the call ends undefined instead of
returning. -/
theorem close_all_steps_through_freed_record :
    close (sample_env 0 false) (-1) (table_machine 1 [{ handle := 2, file := 500 }]) =
      Result.undefined ((table_machine 0 []).emit (Event.file_close 500)) := by
  decide

/-- C8: for `fd` other than `-1` on a table whose records hold non-null files
(as every record made by `open` does): when some record has handle `fd`,
`close fd` returns after one `file_close` of the file of the first such record,
with exactly that record taken out of the table, the records before and after
it unchanged and in their order, and the counter decremented; when no record
has handle `fd`, `close fd` returns with the machine (table, counter, trace)
unchanged. -/
theorem close_one_record (env : Env) (fd : Int) (m : Machine) (hfd : fd ≠ -1)
    (hnn : ∀ r ∈ m.cur.process_files, r.file ≠ 0) :
    ((∃ r ∈ m.cur.process_files, r.handle = fd) →
      ∃ l1 r l2, m.cur.process_files = l1 ++ r :: l2 ∧ r.handle = fd ∧
        (∀ x ∈ l1, x.handle ≠ fd) ∧
        close env fd m = Result.returned ()
          { cur := { m.cur with open_file_number := m.cur.open_file_number - 1,
                                process_files := l1 ++ l2 },
            trace := m.trace ++ [Event.file_close r.file] }) ∧
    ((∀ r ∈ m.cur.process_files, r.handle ≠ fd) → close env fd m = Result.returned () m) := by
  refine ⟨?_, ?_⟩
  · intro hex
    obtain ⟨l1, r, l2, hl, hrfd, hl1, hfind, hfile, hrem⟩ :=
      find_file_split fd m.cur.process_files hnn hex
    refine ⟨l1, r, l2, hl, hrfd, hl1, ?_⟩
    unfold close
    dsimp only
    rw [if_pos hfd, hfind, if_neg hfile]
    simp only [Machine.set_files, Machine.emit, hrem]
  · intro hno
    unfold close
    dsimp only
    rw [if_pos hfd, find_file_absent fd _ hno, if_pos rfl]

/-- C8, witness: on the table (2, 500), (3, 501), (4, 502), whose files are
non-null, `close 3` finds a record and takes out the first with handle 3, and
`close 7` finds none and changes nothing. -/
theorem close_one_record_witness :
    (∃ l1 r l2, three_files.cur.process_files = l1 ++ r :: l2 ∧ r.handle = 3 ∧
        (∀ x ∈ l1, x.handle ≠ 3) ∧
        close (sample_env 0 false) 3 three_files = Result.returned ()
          { cur := { three_files.cur with
                      open_file_number := three_files.cur.open_file_number - 1,
                      process_files := l1 ++ l2 },
            trace := three_files.trace ++ [Event.file_close r.file] }) ∧
    close (sample_env 0 false) 7 three_files = Result.returned () three_files :=
  ⟨(close_one_record (sample_env 0 false) 3 three_files (by decide) (by decide)).1 (by decide),
   (close_one_record (sample_env 0 false) 7 three_files (by decide) (by decide)).2 (by decide)⟩

/-! ## Unknown handles -/

/-- C9: when no record of the table has handle `fd`: `filesize fd` returns
`-1`; `tell fd` returns the unsigned `-1`, the 32-bit word `0xffffffff`, which
read as an `int` is `-1`; `read` with `fd` other than the console input and
`write` with `fd` other than the console output, on a buffer that passes
`validate_pointer`, return `-1`; `seek` returns.  `filesize`, `tell` and `seek`
leave the whole machine unchanged; `read` and `write` only take and release the
lock.  So no file-system call is made, the table is unchanged and the process
goes on. -/
theorem unknown_fd (env : Env) (fd : Int) (m : Machine)
    (hno : ∀ r ∈ m.cur.process_files, r.handle ≠ fd) :
    filesize env fd m = Result.returned (-1) m ∧
    tell env fd m = Result.returned 4294967295 m ∧
    toInt32 4294967295 = -1 ∧
    (∀ buffer size, fd ≠ STDIN_FILENO → validate_pointer env buffer = true →
      read env fd buffer size m =
        Result.returned (-1)
          { cur := m.cur, trace := m.trace ++ [Event.lock_acquire, Event.lock_release] }) ∧
    (∀ buffer size, fd ≠ STDOUT_FILENO → validate_pointer env buffer = true →
      write env fd buffer size m =
        Result.returned (-1)
          { cur := m.cur, trace := m.trace ++ [Event.lock_acquire, Event.lock_release] }) ∧
    (∀ position, seek fd position m = Result.returned () m) := by
  have hfind : find_file fd m.cur.process_files = 0 := find_file_absent fd _ hno
  refine ⟨?_, ?_, by decide, ?_, ?_, ?_⟩
  · unfold filesize
    dsimp only
    rw [hfind, if_pos rfl]
  · unfold tell
    dsimp only
    rw [hfind, if_pos rfl]
    rfl
  · intro buffer size hfd hvalid
    unfold read
    dsimp only
    rw [if_neg hfd, if_neg (by rw [hvalid]; decide)]
    have hfind1 : find_file fd (m.emit Event.lock_acquire).cur.process_files = 0 := hfind
    rw [hfind1, if_pos rfl]
    simp [Machine.emit]
  · intro buffer size hfd hvalid
    unfold write
    dsimp only
    rw [if_neg hfd, if_neg (by rw [hvalid]; decide)]
    have hfind1 : find_file fd (m.emit Event.lock_acquire).cur.process_files = 0 := hfind
    rw [hfind1, if_pos rfl]
    simp [Machine.emit]
  · intro position
    unfold seek
    dsimp only
    rw [hfind, if_pos rfl]

/-- C9, witness: handle 9 is not in the table (2, 500), (3, 501), (4, 502);
`filesize 9`, `tell 9`, `read 9`, `write 9` on a mapped buffer and `seek 9`
answer as for an unknown handle. -/
theorem unknown_fd_witness :
    filesize (sample_env 0 false) 9 three_files = Result.returned (-1) three_files ∧
    tell (sample_env 0 false) 9 three_files = Result.returned 4294967295 three_files ∧
    read (sample_env 0 false) 9 good_ptr 16 three_files =
      Result.returned (-1)
        { cur := three_files.cur,
          trace := three_files.trace ++ [Event.lock_acquire, Event.lock_release] } ∧
    write (sample_env 0 false) 9 good_ptr 16 three_files =
      Result.returned (-1)
        { cur := three_files.cur,
          trace := three_files.trace ++ [Event.lock_acquire, Event.lock_release] } ∧
    seek 9 0 three_files = Result.returned () three_files :=
  have h := unknown_fd (sample_env 0 false) 9 three_files (by decide)
  ⟨h.1, h.2.1, h.2.2.2.1 good_ptr 16 (by decide) (by decide),
    h.2.2.2.2.1 good_ptr 16 (by decide) (by decide), h.2.2.2.2.2 0⟩

/-! ## `open` -/

/-- C10: `open` of the null name returns `-1` with the machine unchanged.  For
a name that passes `validate_pointer`: when `filesys_open` answers null, `open`
returns `-1` with table and counter unchanged (the lock was taken and released
around the lookup); when it answers a file, and the literal `""` the name is
compared with lies outside user space, `open` appends one record holding that
file and the handle `open_file_number + 2` at the back of the table, increments
`open_file_number`, and returns that handle. -/
theorem open_outcomes (env : Env) (file : Nat) (m : Machine) :
    (file = 0 → Syscall.open env file m = Result.returned (-1) m) ∧
    (validate_pointer env file = true → env.filesys_open file = 0 →
      Syscall.open env file m = Result.returned (-1)
        { cur := m.cur,
          trace := m.trace ++
            [Event.lock_acquire, Event.filesys_open file, Event.lock_release] }) ∧
    (validate_pointer env file = true → env.filesys_open file ≠ 0 →
      env.is_user_vaddr env.empty_string = false →
      Syscall.open env file m = Result.returned (m.cur.open_file_number + 2)
        { cur := { m.cur with
                    open_file_number := m.cur.open_file_number + 1,
                    process_files := m.cur.process_files ++
                      [{ handle := m.cur.open_file_number + 2, file := env.filesys_open file }] },
          trace := m.trace ++
            [Event.lock_acquire, Event.filesys_open file, Event.lock_release] }) := by
  refine ⟨?_, ?_, ?_⟩
  · intro h0
    unfold Syscall.open
    rw [if_pos h0]
  · intro hv hf
    unfold Syscall.open
    dsimp only
    rw [if_neg (validate_pointer_user env file hv).1, if_neg (by rw [hv]; decide),
      if_pos (Or.inl hf)]
    simp [Machine.emit]
  · intro hv hf hlit
    apply open_success env file m hv hf
    intro heq
    have h1 := (validate_pointer_user env file hv).2
    rw [heq, hlit] at h1
    cases h1

/-- C10, witness: on the table (2, 500), (3, 501), (4, 502) with the counter at
3, `open` of the null name returns `-1`, `open` of a mapped name whose lookup
fails returns `-1`, and `open` of a mapped name whose lookup answers file 503
returns handle 5 and appends (5, 503). -/
theorem open_outcomes_witness :
    Syscall.open (sample_env 503 false) 0 three_files = Result.returned (-1) three_files ∧
    Syscall.open (sample_env 0 false) good_ptr three_files = Result.returned (-1)
      { cur := three_files.cur,
        trace := three_files.trace ++
          [Event.lock_acquire, Event.filesys_open good_ptr, Event.lock_release] } ∧
    Syscall.open (sample_env 503 false) good_ptr three_files =
      Result.returned (three_files.cur.open_file_number + 2)
        { cur := { three_files.cur with
                    open_file_number := three_files.cur.open_file_number + 1,
                    process_files := three_files.cur.process_files ++
                      [{ handle := three_files.cur.open_file_number + 2,
                         file := (sample_env 503 false).filesys_open good_ptr }] },
          trace := three_files.trace ++
            [Event.lock_acquire, Event.filesys_open good_ptr, Event.lock_release] } ∧
    three_files.cur.open_file_number + 2 = 5 ∧
    (sample_env 503 false).filesys_open good_ptr = 503 :=
  ⟨(open_outcomes (sample_env 503 false) 0 three_files).1 rfl,
   (open_outcomes (sample_env 0 false) good_ptr three_files).2.1 (by decide) (by decide),
   (open_outcomes (sample_env 503 false) good_ptr three_files).2.2 (by decide) (by decide)
     (by decide),
   by decide, rfl⟩

/-! ## Conversions between `int` and `unsigned` -/

theorem toInt32_toUInt32 (i : Int) (h1 : -2147483648 ≤ i) (h2 : i < 2147483648) :
    toInt32 (toUInt32 i) = i := by
  unfold toUInt32 toInt32
  split <;> omega

/-! ## Reads and stores through raw pointers -/

theorem validate_readable (env : Env) (a : Nat) (h : validate_pointer env a = true) :
    readable env a = true := by
  unfold validate_pointer at h
  split_ifs at h with hc
  unfold readable
  rw [if_pos hc.2.1]
  exact decide_eq_true hc.2.2

theorem fetch_fault {α : Type} (env : Env) (f : intr_frame) (k : Nat) (m : Machine)
    (next : Int → Machine → Result α) (hr : readable env (slot f k) = false) :
    fetch env f k m next = Result.page_fault (m.load f k) := by
  unfold fetch
  rw [if_neg (by rw [hr]; decide)]

/-! ## Reading from the console -/

/-- C13, as the code has it: `exit (s)` prints exactly one termination line,
with the name of the process, and then reaches `thread_exit`; when the parent
is alive the number in the line is `s`, `exit_status` becomes `s` and `is_alive`
becomes false, with every other field unchanged; when the parent is not alive
the process fields, `exit_status` and `is_alive` among them, stay as they
were. -/
theorem exit_effect (α : Type) (s : Int) (m : Machine) :
    ∃ t n, (exit s m : Result α) =
        Result.exited
          { cur := t, trace := m.trace ++ [Event.printf_exit m.cur.name n, Event.thread_exit] } ∧
      (m.cur.parent_is_alive = true →
        n = s ∧ t = { m.cur with is_alive := false, exit_status := s }) ∧
      (m.cur.parent_is_alive = false → t = m.cur) := by
  cases hp : m.cur.parent_is_alive with
  | true =>
    refine ⟨{ m.cur with is_alive := false, exit_status := s }, s, ?_, ?_, ?_⟩
    · simp [exit, hp]
    · intro _
      exact ⟨rfl, rfl⟩
    · intro h
      cases h
  | false =>
    refine ⟨m.cur, m.cur.exit_status, ?_, ?_, ?_⟩
    · simp [exit, hp]
    · intro h
      cases h
    · intro _
      rfl

/-- C13, witness: with a living parent, `exit (7)` on the sample process prints
`main: exit(7)`, stores 7 in `exit_status` and clears `is_alive`. -/
theorem exit_effect_witness :
    (exit 7 fresh_machine : Result Unit) =
      Result.exited
        { cur := { fresh_machine.cur with is_alive := false, exit_status := 7 },
          trace := [Event.printf_exit ['m', 'a', 'i', 'n'] 7, Event.thread_exit] } := by
  obtain ⟨t, n, h, halive, _⟩ := exit_effect Unit 7 fresh_machine
  obtain ⟨hn, ht⟩ := halive rfl
  rw [h, hn, ht]
  rfl

/-- C13, counterexample: when the parent is not alive, `exit (7)` leaves the
old value 0 in `exit_status` and prints `main: exit(0)`: the status 7 is neither
recorded nor shown. -/
theorem exit_orphan_keeps_old_status :
    orphan_machine.cur.parent_is_alive = false ∧
    (exit 7 orphan_machine : Result Unit) =
      Result.exited
        { cur := orphan_machine.cur,
          trace := [Event.printf_exit ['m', 'a', 'i', 'n'] 0, Event.thread_exit] } ∧
    orphan_machine.cur.exit_status = 0 := by
  decide

/-! ## `exec` -/

theorem find_child_absent (pid : Int) (l : List child_info)
    (h : ∀ c ∈ l, c.tid ≠ pid) : find_child pid l = none := by
  induction l with
  | nil => rfl
  | cons a rest ih =>
    have ha : a.tid ≠ pid := h a (List.mem_cons_self a rest)
    have hrest : ∀ c ∈ rest, c.tid ≠ pid := fun c hc => h c (List.mem_cons_of_mem a hc)
    simp [find_child, ha, ih hrest]

theorem find_child_split (pid : Int) (l : List child_info)
    (hex : ∃ c ∈ l, c.tid = pid) :
    ∃ l1 c l2, l = l1 ++ c :: l2 ∧ c.tid = pid ∧ (∀ x ∈ l1, x.tid ≠ pid) ∧
      find_child pid l = some c := by
  induction l with
  | nil =>
    obtain ⟨c, hc, _⟩ := hex
    cases hc
  | cons a rest ih =>
    by_cases ha : a.tid = pid
    · refine ⟨[], a, rest, rfl, ha, ?_, ?_⟩
      · intro x hx
        cases hx
      · simp [find_child, ha]
    · have hex1 : ∃ c ∈ rest, c.tid = pid := by
        obtain ⟨c, hc, hcpid⟩ := hex
        rcases List.mem_cons.mp hc with h | h
        · exact absurd (h ▸ hcpid) ha
        · exact ⟨c, h, hcpid⟩
      obtain ⟨l1, c, l2, hl, hcpid, hl1, hfind⟩ := ih hex1
      refine ⟨a :: l1, c, l2, by simp [hl], hcpid, ?_, ?_⟩
      · intro x hx
        rcases List.mem_cons.mp hx with h | h
        · exact h ▸ ha
        · exact hl1 x h
      · simp [find_child, ha, hfind]

/-- C14: for a command line that passes `validate_pointer`: when
`process_execute` answers `TID_ERROR`, `exec` returns `-1` and the only call it
made is `process_execute` (no `sema_down`); otherwise, when the caller's
`child_list` (with the entries the spawn linked) has an entry whose `tid` is the
pid answered, `exec` calls `sema_down` once after `process_execute` and returns
`-1` if the first such entry of the list has `load_bool` false and the pid if
it has `load_bool` true, wherever in the list that entry stands. -/
theorem exec_outcomes (env : Env) (cmd_line : Nat) (m : Machine)
    (hv : validate_pointer env cmd_line = true) :
    ((env.process_execute cmd_line).1 = env.TID_ERROR →
      exec env cmd_line m =
        Result.returned (-1)
          { cur := { m.cur with
                      child_list := m.cur.child_list ++ (env.process_execute cmd_line).2 },
            trace := m.trace ++ [Event.process_execute cmd_line] }) ∧
    ((env.process_execute cmd_line).1 ≠ env.TID_ERROR →
      (∃ c ∈ m.cur.child_list ++ (env.process_execute cmd_line).2,
        c.tid = (env.process_execute cmd_line).1) →
      ∃ l1 c l2,
        m.cur.child_list ++ (env.process_execute cmd_line).2 = l1 ++ c :: l2 ∧
        c.tid = (env.process_execute cmd_line).1 ∧
        (∀ x ∈ l1, x.tid ≠ (env.process_execute cmd_line).1) ∧
        exec env cmd_line m =
          Result.returned (if c.load_bool = true then (env.process_execute cmd_line).1 else -1)
            { cur := { m.cur with
                        child_list := m.cur.child_list ++ (env.process_execute cmd_line).2 },
              trace := m.trace ++ [Event.process_execute cmd_line, Event.sema_down] }) := by
  refine ⟨?_, ?_⟩
  · intro hpid
    unfold exec
    dsimp only
    rw [if_neg (by rw [hv]; decide), if_pos hpid]
  · intro hpid hex
    obtain ⟨l1, c, l2, hl, hc, hl1, hfind⟩ := find_child_split _ _ hex
    refine ⟨l1, c, l2, hl, hc, hl1, ?_⟩
    unfold exec
    dsimp only
    rw [if_neg (by rw [hv]; decide), if_neg hpid, hfind]
    cases hb : c.load_bool <;> simp [Machine.emit, hb]

/-- C14, witness: on a process that already has the children 5 and 6, a spawn
that fails returns `-1` with no `sema_down`; a spawn that answers pid 7 and
links a child with `load_bool` true behind them returns 7 after one
`sema_down`; with `load_bool` false it returns `-1` after one `sema_down`. -/
theorem exec_outcomes_witness :
    exec (spawn_env (-1) []) good_ptr parent_machine =
      Result.returned (-1)
        { cur := parent_machine.cur, trace := [Event.process_execute good_ptr] } ∧
    (∃ l1 c l2,
      parent_machine.cur.child_list ++ [{ tid := 7, load_bool := true }] = l1 ++ c :: l2 ∧
      c.tid = 7 ∧ (∀ x ∈ l1, x.tid ≠ 7) ∧
      exec (spawn_env 7 [{ tid := 7, load_bool := true }]) good_ptr parent_machine =
        Result.returned (if c.load_bool = true then 7 else -1)
          { cur := { parent_machine.cur with
                      child_list :=
                        parent_machine.cur.child_list ++ [{ tid := 7, load_bool := true }] },
            trace := [Event.process_execute good_ptr, Event.sema_down] }) ∧
    exec (spawn_env 7 [{ tid := 7, load_bool := true }]) good_ptr parent_machine =
      Result.returned 7
        { cur := { parent_machine.cur with
                    child_list :=
                      [{ tid := 5, load_bool := true }, { tid := 6, load_bool := false },
                       { tid := 7, load_bool := true }] },
          trace := [Event.process_execute good_ptr, Event.sema_down] } ∧
    exec (spawn_env 7 [{ tid := 7, load_bool := false }]) good_ptr parent_machine =
      Result.returned (-1)
        { cur := { parent_machine.cur with
                    child_list :=
                      [{ tid := 5, load_bool := true }, { tid := 6, load_bool := false },
                       { tid := 7, load_bool := false }] },
          trace := [Event.process_execute good_ptr, Event.sema_down] } ∧
    exec (spawn_env 6 []) good_ptr parent_machine =
      Result.returned (-1)
        { cur := parent_machine.cur,
          trace := [Event.process_execute good_ptr, Event.sema_down] } := by
  have h1 := (exec_outcomes (spawn_env (-1) []) good_ptr parent_machine (by decide)).1
    (by decide)
  have h2 := (exec_outcomes (spawn_env 7 [{ tid := 7, load_bool := true }]) good_ptr
    parent_machine (by decide)).2 (by decide) (by decide)
  refine ⟨?_, h2, ?_, ?_, ?_⟩
  · rw [h1]; decide
  · decide
  · decide
  · decide

/-! ## The dispatcher -/

theorem exit_unfold (α : Type) (s : Int) (m : Machine) :
    (exit s m : Result α) =
      Result.exited
        { cur := if m.cur.parent_is_alive = true then
              { m.cur with is_alive := false, exit_status := s }
            else m.cur,
          trace := m.trace ++
            [Event.printf_exit m.cur.name
              (if m.cur.parent_is_alive = true then s else m.cur.exit_status),
             Event.thread_exit] } := by
  cases hp : m.cur.parent_is_alive <;> simp [exit, hp]

/-- C15: when the stack pointer of the frame fails `validate_pointer`,
`syscall_handler` ends in `exit (-1)` right after `lock_init`: the events it adds
are `lock_init`, the termination line and `thread_exit`, so no word of user
memory is read, no handler runs, and no frame with a written return slot comes
back; with a living parent the line shows `-1` and `exit_status` is `-1`. -/
theorem invalid_frame_exits (env : Env) (f : intr_frame) (m : Machine)
    (hbad : validate_pointer env f.esp = false) :
    syscall_handler env f m = exit (-1) (m.emit Event.lock_init) ∧
    ∃ t n, syscall_handler env f m =
        Result.exited
          { cur := t,
            trace := m.trace ++
              [Event.lock_init, Event.printf_exit m.cur.name n, Event.thread_exit] } ∧
      (m.cur.parent_is_alive = true →
        n = -1 ∧ t = { m.cur with is_alive := false, exit_status := -1 }) := by
  have h : syscall_handler env f m = exit (-1) (m.emit Event.lock_init) := by
    unfold syscall_handler
    dsimp only
    rw [if_pos hbad]
  refine ⟨h,
    if m.cur.parent_is_alive = true then { m.cur with is_alive := false, exit_status := -1 }
    else m.cur,
    if m.cur.parent_is_alive = true then -1 else m.cur.exit_status, ?_, ?_⟩
  · rw [h, exit_unfold]
    simp [Machine.emit]
  · intro hp
    simp [hp]

/-- C15, witness: the frame with the unmapped stack pointer `0x1000` ends in
`exit (-1)` after `lock_init` alone. -/
theorem invalid_frame_exits_witness :
    syscall_handler (frame_env bad_frame.esp [1, 5]) bad_frame fresh_machine =
      Result.exited
        { cur := { fresh_machine.cur with is_alive := false, exit_status := -1 },
          trace :=
            [Event.lock_init, Event.printf_exit ['m', 'a', 'i', 'n'] (-1),
             Event.thread_exit] } := by
  rw [(invalid_frame_exits (frame_env bad_frame.esp [1, 5]) bad_frame fresh_machine
    (by decide)).1]
  decide

theorem map_machine {α β : Type} (g : α → β) (r : Result α) : (r.map g).machine = r.machine := by
  cases r <;> rfl

theorem console_lock_scan (env : Env) (buffer : Nat) (l : List Nat) :
    lock_scan false (l.flatMap (fun i =>
      [Event.input_getc,
       Event.store_byte ((buffer + i) % 4294967296) (env.input_getc i)])) = some false := by
  induction l with
  | nil => rfl
  | cons i rest ih =>
    rw [List.flatMap_cons]
    simp [lock_scan, Event.is_filesys, ih]

/-- C19, as the code has it: in `open`, `read` and `write`, on every path, the
events the call adds keep the lock discipline: each call of a file-system
primitive (`filesys_open`, `file_read`, `file_write`) lies between a
`lock_acquire` and the next `lock_release`, and the lock is not held when the
call ends, the unknown-fd and failed-open returns included.  `create`,
`remove`, `seek` and `tell` make their call of `filesys_create`,
`filesys_remove`, `file_seek`, `file_tell` as their only event, without taking
the lock. -/
theorem lock_discipline (env : Env) (m : Machine) :
    (∀ file, ∃ es, (Syscall.open env file m).machine.trace = m.trace ++ es ∧
      lock_scan false es = some false) ∧
    (∀ fd buffer size, ∃ es, (read env fd buffer size m).machine.trace = m.trace ++ es ∧
      lock_scan false es = some false) ∧
    (∀ fd buffer size, ∃ es, (write env fd buffer size m).machine.trace = m.trace ++ es ∧
      lock_scan false es = some false) ∧
    (∀ file initial_size, file ≠ 0 → validate_pointer env file = true →
      (create env file initial_size m).machine.trace =
        m.trace ++ [Event.filesys_create file initial_size]) ∧
    (∀ file, (remove env file m).machine.trace = m.trace ++ [Event.filesys_remove file]) ∧
    (∀ fd position, find_file fd m.cur.process_files ≠ 0 →
      (seek fd position m).machine.trace =
        m.trace ++ [Event.file_seek (find_file fd m.cur.process_files) position]) ∧
    (∀ fd, find_file fd m.cur.process_files ≠ 0 →
      (tell env fd m).machine.trace =
        m.trace ++ [Event.file_tell (find_file fd m.cur.process_files)]) := by
  have hexit : ∀ (α : Type) (s : Int), ∃ es, (exit s m : Result α).machine.trace = m.trace ++ es ∧
      lock_scan false es = some false := by
    intro α s
    rw [exit_unfold]
    exact ⟨_, rfl, by simp [lock_scan, Event.is_filesys]⟩
  refine ⟨?_, ?_, ?_, ?_, ?_, ?_, ?_⟩
  · intro file
    unfold Syscall.open
    dsimp only
    split_ifs
    · exact ⟨[], by simp [Result.machine], rfl⟩
    · exact hexit _ _
    · exact ⟨[Event.lock_acquire, Event.filesys_open file, Event.lock_release],
        by simp [Result.machine, Machine.emit], by simp [lock_scan, Event.is_filesys]⟩
    · exact ⟨[Event.lock_acquire, Event.filesys_open file, Event.lock_release],
        by simp [Result.machine, Machine.emit, Machine.set_files],
        by simp [lock_scan, Event.is_filesys]⟩
  · intro fd buffer size
    unfold read
    dsimp only
    split_ifs
    · rw [map_machine]
      obtain ⟨l2, h2⟩ := read_console_trace env buffer (List.range size) m
      rw [h2]
      exact ⟨_, rfl, console_lock_scan env buffer _⟩
    · exact hexit _ _
    · exact ⟨[Event.lock_acquire, Event.lock_release],
        by simp [Result.machine, Machine.emit], by simp [lock_scan]⟩
    · exact ⟨[Event.lock_acquire,
          Event.file_read (find_file fd (m.emit Event.lock_acquire).cur.process_files) buffer size,
          Event.lock_release],
        by simp [Result.machine, Machine.emit], by simp [lock_scan, Event.is_filesys]⟩
  · intro fd buffer size
    unfold write
    dsimp only
    split_ifs
    · exact ⟨[Event.putbuf buffer size], by simp [Result.machine, Machine.emit],
        by simp [lock_scan, Event.is_filesys]⟩
    · exact hexit _ _
    · exact ⟨[Event.lock_acquire, Event.lock_release],
        by simp [Result.machine, Machine.emit], by simp [lock_scan]⟩
    · exact ⟨[Event.lock_acquire,
          Event.file_write (find_file fd (m.emit Event.lock_acquire).cur.process_files) buffer
            size,
          Event.lock_release],
        by simp [Result.machine, Machine.emit], by simp [lock_scan, Event.is_filesys]⟩
  · intro file initial_size h0 hv
    unfold create
    rw [if_neg (by
      intro h
      rcases h with h | h
      · exact h0 h
      · rw [hv] at h
        cases h)]
    simp [Result.machine, Machine.emit]
  · intro file
    simp [remove, Result.machine, Machine.emit]
  · intro fd position hfind
    unfold seek
    dsimp only
    rw [if_neg hfind]
    simp [Result.machine, Machine.emit]
  · intro fd hfind
    unfold tell
    dsimp only
    rw [if_neg hfind]
    simp [Result.machine, Machine.emit]

/-- C19, witness: on the table (2, 500), (3, 501), (4, 502), `create` of a
mapped name and `seek` and `tell` on handle 3 add their file-system call and
nothing else. -/
theorem lock_discipline_witness :
    (create (sample_env 0 false) good_ptr 0 three_files).machine.trace =
      three_files.trace ++ [Event.filesys_create good_ptr 0] ∧
    (seek 3 0 three_files).machine.trace =
      three_files.trace ++ [Event.file_seek (find_file 3 three_files.cur.process_files) 0] ∧
    (tell (sample_env 0 false) 3 three_files).machine.trace =
      three_files.trace ++ [Event.file_tell (find_file 3 three_files.cur.process_files)] :=
  have h := lock_discipline (sample_env 0 false) three_files
  ⟨h.2.2.2.1 good_ptr 0 (by decide) (by decide), h.2.2.2.2.2.1 3 0 (by decide),
    h.2.2.2.2.2.2 3 (by decide)⟩

/-- C19, counterexample: `create`, `remove`, `seek` and `tell` each call their
file-system primitive with no `lock_acquire` before it, so the scan of their
events finds a primitive called while the lock is not held. -/
theorem primitives_without_lock :
    (create (sample_env 0 false) good_ptr 0 three_files).machine.trace =
      [Event.filesys_create good_ptr 0] ∧
    lock_scan false [Event.filesys_create good_ptr 0] = none ∧
    (remove (sample_env 0 false) good_ptr three_files).machine.trace =
      [Event.filesys_remove good_ptr] ∧
    lock_scan false [Event.filesys_remove good_ptr] = none ∧
    (seek 3 0 three_files).machine.trace = [Event.file_seek 501 0] ∧
    lock_scan false [Event.file_seek 501 0] = none ∧
    (tell (sample_env 0 false) 3 three_files).machine.trace = [Event.file_tell 501] ∧
    lock_scan false [Event.file_tell 501] = none := by
  decide

/-! ## The counter and the table -/

/-- C11, at a concrete state: after two opens and the close of handle 2 the
table holds the one record (3, 501) with the counter at 1.  The round trip
then gets handle 3 for the file 502 it opens, and its `write`, `seek`, `read`
and `close` all go to file 501, the older record with handle 3; file 502 is
never written and stays in the table.  On a byte store where file 501 is at
offset 0 the buffer still ends up equal to the data; where file 501 holds
three bytes and stands at offset 3, the buffer receives 48, 49 and not the
data 120, 121. -/
theorem round_trip_uses_older_file :
    Fresh fresh_machine ∧
    run shadow_calls fresh_machine = some ([some 2, some 3, none], shadow_machine) ∧
    round_trip (sample_env 502 false) (good_ptr + 32) good_ptr (good_ptr + 16) 2
        shadow_machine =
      some (3,
        { cur := (table_machine 1 [{ handle := 3, file := 502 }]).cur,
          trace := shadow_machine.trace ++ shadow_round_trip_events }) ∧
    (blank_store.replay shadow_round_trip_events).content 502 = [] ∧
    (blank_store.replay shadow_round_trip_events).content 501 = [120, 121] ∧
    (blank_store.replay shadow_round_trip_events).bytes_at (good_ptr + 16) 2 = [120, 121] ∧
    used_store.bytes_at good_ptr 2 = [120, 121] ∧
    (used_store.replay shadow_round_trip_events).bytes_at (good_ptr + 16) 2 = [48, 49] ∧
    (used_store.replay shadow_round_trip_events).content 502 = [] := by
  refine ⟨⟨rfl, rfl⟩, ?_, ?_, ?_, ?_, ?_, ?_, ?_, ?_⟩ <;> decide

theorem round_trip_fresh :
    round_trip (sample_env 502 false) (good_ptr + 32) good_ptr (good_ptr + 16) 2
        fresh_machine =
      some (2,
        { cur := fresh_machine.cur,
          trace :=
            [Event.filesys_create (good_ptr + 32) 0,
             Event.lock_acquire, Event.filesys_open (good_ptr + 32), Event.lock_release,
             Event.lock_acquire, Event.file_write 502 good_ptr 2, Event.lock_release,
             Event.file_seek 502 0,
             Event.lock_acquire, Event.file_read 502 (good_ptr + 16) 2, Event.lock_release,
             Event.file_close 502] }) ∧
    (blank_store.replay
      [Event.filesys_create (good_ptr + 32) 0,
       Event.lock_acquire, Event.filesys_open (good_ptr + 32), Event.lock_release,
       Event.lock_acquire, Event.file_write 502 good_ptr 2, Event.lock_release,
       Event.file_seek 502 0,
       Event.lock_acquire, Event.file_read 502 (good_ptr + 16) 2, Event.lock_release,
       Event.file_close 502]).bytes_at (good_ptr + 16) 2 = [120, 121] := by
  refine ⟨?_, ?_⟩ <;> decide

end Syscall
